import Mathlib

/-!
Verification development for the CSV data-validation engine.

The Lean definitions below are a shallow embedding of the Python sources:
`validators_common.py`, `validators.py`, `validators_peru.py`,
`validators_colombia.py`, `validators_ims.py`, `validator_registry.py`,
`parallel_validator.py`, `data_processor.py` and the `/validate` route of
`app.py`.  Python strings become `String`, `None`-or-string results become
`Option String`, dictionaries become association lists, and the ambient
clock (`datetime.today()`) becomes an explicit `PyDate` argument.  Regular
expressions from the sources are translated into executable character-level
matchers; each matcher's doc comment records the original pattern.
-/

namespace DataValidation

/-- Python `str.strip()` whitespace set (space, tab, newline, carriage
return, vertical tab, form feed). -/
def isPySpace (c : Char) : Bool :=
  c = ' ' || c = '\t' || c = '\n' || c = '\r' || c = '\x0b' || c = '\x0c'

/-- List-level strip for `str.strip()`. -/
def pyStripL (l : List Char) : List Char :=
  ((l.dropWhile isPySpace).reverse.dropWhile isPySpace).reverse

/-- Model of Python `str.strip()`. -/
def pyStrip (s : String) : String := ⟨pyStripL s.data⟩

/-- Model of Python `str.lower()` (ASCII letters; the inputs relevant to the
claims are ASCII). -/
def pyLower (s : String) : String := ⟨s.data.map Char.toLower⟩

/-- Model of Python `str.upper()` (ASCII letters). -/
def pyUpper (s : String) : String := ⟨s.data.map Char.toUpper⟩

/-- First-match association-list lookup, the semantics of Python dict
access on the maps built by the validators. -/
def alookup {β : Type} (k : String) : List (String × β) → Option β
  | [] => none
  | p :: t => if p.1 = k then some p.2 else alookup k t

/-- A CSV row after column mapping: canonical field name to raw value. -/
abbrev Row := List (String × String)

/-- Python `row.get(key, '')`. -/
def Row.get (r : Row) (k : String) : String := (alookup k r).getD ""

/-- Python `row.get(key, default)`. -/
def Row.getD (r : Row) (k d : String) : String := (alookup k r).getD d

/-- Python `key in row and row[key]` (key present with a truthy value). -/
def rowHasTruthy (r : Row) (k : String) : Bool :=
  match alookup k r with
  | some v => !(v = "")
  | none => false

/-- ASCII uppercase letter. -/
def isUpperAlpha (c : Char) : Bool := decide ('A' ≤ c) && decide (c ≤ 'Z')

/-- ASCII lowercase letter. -/
def isLowerAlpha (c : Char) : Bool := decide ('a' ≤ c) && decide (c ≤ 'z')

/-- ASCII letter. -/
def isAsciiAlpha (c : Char) : Bool := isUpperAlpha c || isLowerAlpha c

/-- ASCII alphanumeric character. -/
def isAlphaNum (c : Char) : Bool := isAsciiAlpha c || c.isDigit

/-- Accented Latin letters spelled out in the validator regexes. -/
def isAccentedListed (c : Char) : Bool :=
  ['á', 'é', 'í', 'ó', 'ú', 'ñ', 'Á', 'É', 'Í', 'Ó', 'Ú', 'Ñ'].contains c

/-- Character class of the local part of `EMAIL_PATTERN`
`[a-zA-Z0-9._%+-áéíóúñÁÉÍÓÚÑ$]`: note that in the source pattern the
fragment between the plus sign and the a-acute is a regex range covering
code points 0x2B through 0xE1. -/
def emailLocalChar (c : Char) : Bool :=
  isAlphaNum c || ['.', '_', '%', '$'].contains c ||
    (decide (43 ≤ c.toNat) && decide (c.toNat ≤ 225)) ||
    ['é', 'í', 'ó', 'ú', 'ñ'].contains c

/-- Character class `[a-zA-Z0-9.-]` of the email domain part. -/
def emailDomainChar (c : Char) : Bool := isAlphaNum c || c = '.' || c = '-'

/-- Character class of `NAME_PATTERN`. -/
def nameChar (c : Char) : Bool :=
  isAsciiAlpha c || isAccentedListed c || isPySpace c ||
    ['-', '.'].contains c || c.toNat = 39

/-- Character class of `ZIP_CODE_PATTERN` `[a-zA-Z0-9\s\-]`. -/
def zipChar (c : Char) : Bool := isAlphaNum c || isPySpace c || c = '-'

/-- Character class of `REGION_PROVINCE_CODE_PATTERN` `[A-Za-z0-9\-_]`. -/
def regionChar (c : Char) : Bool := isAlphaNum c || c = '-' || c = '_'

/-- Character class of `PERSONAL_ID_PATTERN` `[A-Za-z0-9\-\s]`. -/
def personalChar (c : Char) : Bool := isAlphaNum c || c = '-' || isPySpace c

/-- Character class `[\d\s\-\(\)]` of the tail of `PHONE_PATTERN`. -/
def phoneTailChar (c : Char) : Bool :=
  c.isDigit || isPySpace c || c = '-' || c = '(' || c = ')'

/-- Full match of `^[A-Z]{2}$` (`COUNTRY_CODE_PATTERN`). -/
def matchTwoUpper (s : String) : Bool :=
  s.length = 2 && s.data.all isUpperAlpha

/-- Full match of `^[A-Z]{3}$` (`CURRENCY_CODE_PATTERN`). -/
def matchThreeUpper (s : String) : Bool :=
  s.length = 3 && s.data.all isUpperAlpha

/-- Full match of `^[a-z]{2}$` (`LANGUAGE_CODE_PATTERN`). -/
def matchTwoLower (s : String) : Bool :=
  s.length = 2 && s.data.all isLowerAlpha

/-- Full match of `NAME_PATTERN` (nonempty run of name characters). -/
def matchNamePattern (s : String) : Bool :=
  !(s.data = []) && s.data.all nameChar

/-- Full match of `ZIP_CODE_PATTERN` `^[a-zA-Z0-9\s\-]{3,10}$`. -/
def matchZipPattern (s : String) : Bool :=
  3 ≤ s.length && s.length ≤ 10 && s.data.all zipChar

/-- Full match of `REGION_PROVINCE_CODE_PATTERN` `^[A-Za-z0-9\-_]{1,10}$`. -/
def matchRegionPattern (s : String) : Bool :=
  1 ≤ s.length && s.length ≤ 10 && s.data.all regionChar

/-- Full match of `PERSONAL_ID_PATTERN` `^[A-Za-z0-9\-\s]+$`. -/
def matchPersonalPattern (s : String) : Bool :=
  !(s.data = []) && s.data.all personalChar

/-- Full match of `PHONE_PATTERN` `^\+?\d[\d\s\-\(\)]{8,20}$`. -/
def matchPhonePattern (s : String) : Bool :=
  match (if s.data.head? = some '+' then s.data.tail else s.data) with
  | [] => false
  | c :: rest =>
    c.isDigit && decide (8 ≤ rest.length) && decide (rest.length ≤ 20) &&
      rest.all phoneTailChar

/-- Domain-and-TLD part of `EMAIL_PATTERN`: full match of
`[a-zA-Z0-9.-]+\.[a-zA-Z]{2,}`.  Because the TLD class excludes dots, the
separating dot is the last dot of the string. -/
def matchEmailDomain (l : List Char) : Bool :=
  let rev := l.reverse
  let tld := rev.takeWhile (fun c => !(c = '.'))
  match rev.drop tld.length with
  | '.' :: restRev =>
    decide (2 ≤ tld.length) && tld.all isAsciiAlpha &&
      !(restRev = []) && restRev.all emailDomainChar
  | _ => false

/-- Full match of `EMAIL_PATTERN`.  Since the domain classes exclude the
at-sign while the local class includes it, the separator is the last
at-sign of the string. -/
def matchEmailPattern (s : String) : Bool :=
  let rev := s.data.reverse
  let dom := rev.takeWhile (fun c => !(c = '@'))
  match rev.drop dom.length with
  | '@' :: localRev =>
    !(localRev = []) && localRev.all emailLocalChar &&
      matchEmailDomain dom.reverse
  | _ => false

/-- Full match of the Spanish DNI pattern `^\d{8}[A-Z]$`. -/
def matchDNI (s : String) : Bool :=
  s.length = 9 && (s.data.take 8).all Char.isDigit &&
    (s.data.drop 8).all isUpperAlpha

/-- Full match of the Spanish NIE pattern `^[XYZ]\d{7}[A-Z]$`. -/
def matchNIE (s : String) : Bool :=
  match s.data with
  | c :: rest =>
    ['X', 'Y', 'Z'].contains c && rest.length = 8 &&
      (rest.take 7).all Char.isDigit && (rest.drop 7).all isUpperAlpha
  | [] => false

/-- Full match of `^LIMA\d{2}$`. -/
def matchLimaZip (s : String) : Bool :=
  match s.data with
  | 'L' :: 'I' :: 'M' :: 'A' :: rest => rest.length = 2 && rest.all Char.isDigit
  | _ => false

/-- Full match of `^\d{n}$`. -/
def matchDigits (n : Nat) (s : String) : Bool :=
  s.length = n && s.data.all Char.isDigit

/-- Calendar date, the date component of a Python `datetime`.  The sources
read the clock via `datetime.today()`; the embedding passes the current
date as an explicit argument. -/
structure PyDate where
  year : Nat
  month : Nat
  day : Nat
deriving Repr, DecidableEq

/-- Strict lexicographic date comparison (Python `datetime` `<`). -/
def PyDate.ltb (a b : PyDate) : Bool :=
  decide (a.year < b.year ∨
    (a.year = b.year ∧ (a.month < b.month ∨ (a.month = b.month ∧ a.day < b.day))))

/-- Reflexive lexicographic date comparison. -/
def PyDate.leb (a b : PyDate) : Bool := !(PyDate.ltb b a)

/-- Gregorian leap-year test. -/
def isLeapYear (y : Nat) : Bool :=
  (decide (y % 4 = 0) && !(decide (y % 100 = 0))) || decide (y % 400 = 0)

/-- Number of days in a month. -/
def daysInMonth (y m : Nat) : Nat :=
  if m = 2 then (if isLeapYear y then 29 else 28)
  else if m = 4 ∨ m = 6 ∨ m = 9 ∨ m = 11 then 30
  else 31

/-- Value of a nonempty all-digit character list. -/
def digitsToNat (l : List Char) : Nat :=
  l.foldl (fun n c => n * 10 + (c.toNat - 48)) 0

/-- Split a character list on a separator character, the semantics of
Python `str.split(sep)` for a one-character separator. -/
def splitOnChar (sep : Char) : List Char → List (List Char)
  | [] => [[]]
  | c :: cs =>
    match splitOnChar sep cs with
    | [] => if c = sep then [[], []] else [[c]]
    | h :: t => if c = sep then [] :: h :: t else (c :: h) :: t

/-- Numeric field of `strptime`: 1 to `maxLen` digits. -/
def parseNumField (maxLen : Nat) (l : List Char) : Option Nat :=
  if l ≠ [] ∧ l.length ≤ maxLen ∧ l.all Char.isDigit then
    some (digitsToNat l)
  else none

/-- Range-checked date construction, as `strptime` rejects out-of-range
components (including day-of-month overflow). -/
def mkValidDate (y m d : Nat) : Option PyDate :=
  if 1 ≤ y ∧ y ≤ 9999 ∧ 1 ≤ m ∧ m ≤ 12 ∧ 1 ≤ d ∧ d ≤ daysInMonth y m then
    some ⟨y, m, d⟩
  else none

/-- Model of `datetime.strptime(s, fmt)` for a three-field slash or dash
format; the three `maxLen` widths follow the order of the fields in the
format string. -/
def parseDate3 (sep : Char) (w1 w2 w3 : Nat) (s : String) : Option (Nat × Nat × Nat) :=
  match splitOnChar sep s.data with
  | [a, b, c] =>
    match parseNumField w1 a, parseNumField w2 b, parseNumField w3 c with
    | some x, some y, some z => some (x, y, z)
    | _, _, _ => none
  | _ => none

/-- Python `datetime.strptime(s, '%d/%m/%Y')`. -/
def parseDMY (s : String) : Option PyDate :=
  match parseDate3 '/' 2 2 4 s with
  | some (d, m, y) => mkValidDate y m d
  | none => none

/-- Python `datetime.strptime(s, '%m/%d/%Y')`. -/
def parseMDY (s : String) : Option PyDate :=
  match parseDate3 '/' 2 2 4 s with
  | some (m, d, y) => mkValidDate y m d
  | none => none

/-- Python `datetime.strptime(s, '%Y-%m-%d')`. -/
def parseYMD (s : String) : Option PyDate :=
  match parseDate3 '-' 4 2 2 s with
  | some (y, m, d) => mkValidDate y m d
  | none => none

/-- Model of `dateutil.relativedelta(today, birth).years` for
`birth ≤ today`: the year difference, lowered by one exactly when the
month/day of `today` has not yet reached the month/day of `birth` (the
borrow chain of relativedelta normalization). -/
def relativedeltaYears (today birth : PyDate) : Int :=
  (today.year : Int) - (birth.year : Int) -
    (if today.month < birth.month ∨ (today.month = birth.month ∧ today.day < birth.day)
     then 1 else 0)

/-- Wrap a string in single quotes, as the f-strings of the sources do. -/
def quoted (s : String) : String := "'" ++ s ++ "'"

namespace ValidatorsCommon

/-- Source: `validators_common.is_valid_email`. -/
def is_valid_email (email : String) : Option String :=
  if email = "" then some "Email is empty"
  else
    let e := pyStrip email
    if !(e.data.contains '@') then some "Email missing @ symbol"
    else if matchEmailPattern e then none
    else some "Email has invalid format"

/-- Source: `validators_common.validate_currency_code`. -/
def validate_currency_code (code : String) : Option String :=
  if code = "" then some "Cannot be empty"
  else if matchThreeUpper (pyUpper (pyStrip code)) then none
  else some "Not a valid format (should be 3 uppercase letters)"

/-- Source: `validators_common.is_invalid_birthdate` with the clock passed
explicitly; `ageLimit` is the `age_limit=18` parameter. -/
def is_invalid_birthdate (today : PyDate) (birthdate : String) (ageLimit : Int) : Option String :=
  if birthdate = "" then some "Birthdate is empty"
  else
    let s := pyStrip birthdate
    match (parseDMY s).orElse (fun _ => parseMDY s) with
    | some bd =>
      if PyDate.ltb today bd then some "Birthdate is in the future"
      else
        let age := relativedeltaYears today bd
        if age < ageLimit then
          some ("Account holder is underage (age: " ++ toString age ++ ")")
        else none
    | none => some "Invalid birthdate format"

/-- Source: `validators_common.validate_phone_number` (the phone validator
imported by `app.py` and `parallel_validator.py`). -/
def validate_phone_number (phone : String) : Option String :=
  if phone = "" then some "Phone number is empty"
  else if matchPhonePattern (pyStrip phone) then none
  else some "Phone number has invalid format"

/-- Source: `validators_common.check_for_crlf`. -/
def check_for_crlf (value : String) : Option String :=
  if value.data.contains '\r' ∨ value.data.contains '\n' then
    some "Contains line breaks (potential CRLF injection)"
  else none

/-- Source: `validators_common.validate_country_code`. -/
def validate_country_code (code : String) : Option String :=
  if code = "" then some "Country code is empty"
  else if matchTwoUpper (pyUpper (pyStrip code)) then none
  else some "Country code must be 2 uppercase letters"

/-- Source: `validators_common.validate_language_code`. -/
def validate_language_code (code : String) : Option String :=
  if code = "" then some "Language code is empty"
  else if matchTwoLower (pyLower (pyStrip code)) then none
  else some "Language code must be 2 lowercase letters"

/-- Source: `validators_common.validate_name` (`max_length` defaults to 50
at both call sites). -/
def validate_name (maxLength : Nat) (name : String) : Option String :=
  if name = "" then some "Name is empty"
  else
    let n := pyStrip name
    if n.length > maxLength then
      some ("Name too long (max " ++ toString maxLength ++ " characters)")
    else if matchNamePattern n then none
    else some "Name contains invalid characters"

/-- Source: `validators_common.validate_signup_date` with the clock passed
explicitly. -/
def validate_signup_date (today : PyDate) (s : String) : Option String :=
  if s = "" then some "Signup date is empty"
  else
    let t := pyStrip s
    match ((parseDMY t).orElse (fun _ => parseMDY t)).orElse (fun _ => parseYMD t) with
    | some d =>
      if PyDate.ltb today d then some "Signup date is in the future" else none
    | none => some "Invalid signup date format"

/-- Source: `validators_common.validate_name_length` (called with
`min_length = 1`, `max_length = 50`). -/
def validate_name_length (minLength maxLength : Nat) (name : String) : Option String :=
  if name = "" then
    some ("Name must be at least " ++ toString minLength ++ " character(s)")
  else
    let n := pyStrip name
    if n.length < minLength then
      some ("Name too short (min " ++ toString minLength ++ " characters)")
    else if n.length > maxLength then
      some ("Name too long (max " ++ toString maxLength ++ " characters)")
    else none

/-- Source: `validators_common.validate_zip_code` (the zip validator
imported by `app.py` and `parallel_validator.py`; it takes no country
argument). -/
def validate_zip_code (zip : String) : Option String :=
  if zip = "" then some "Zip code is empty"
  else if matchZipPattern (pyStrip zip) then none
  else some "Zip code has invalid format"

/-- Source: `validators_common.validate_address_fields`. -/
def validate_address_fields (row : Row) : List String :=
  let address := Row.get row "address"
  let city := Row.get row "city"
  if address ≠ "" ∧ city = "" then ["Address provided but city is missing"]
  else if city ≠ "" ∧ address = "" then ["City provided but address is missing"]
  else []

/-- Language-to-countries table of
`validators_common.validate_language_country_consistency`. -/
def language_country_map : List (String × List String) :=
  [("es", ["ES", "MX", "AR", "CO", "PE", "CL", "VE"]),
   ("en", ["US", "GB", "CA", "AU", "NZ"]),
   ("fr", ["FR", "CA", "BE", "CH"]),
   ("de", ["DE", "AT", "CH"]),
   ("it", ["IT", "CH"]),
   ("pt", ["PT", "BR"])]

/-- Source: `validators_common.validate_language_country_consistency`
(note: it reads the `languagecode` key). -/
def validate_language_country_consistency (row : Row) : List String :=
  let language := Row.get row "languagecode"
  let country := Row.get row "countrycode"
  if language ≠ "" ∧ country ≠ "" then
    let l := pyLower (pyStrip language)
    let c := pyUpper (pyStrip country)
    match alookup l language_country_map with
    | some countries =>
      if countries.contains c then []
      else ["Language " ++ quoted l ++ " not typically used in country " ++ quoted c]
    | none => []
  else []

/-- Disposable-domain blocklist of
`validators_common.enhanced_email_validation`. -/
def disposable_domains : List String :=
  ["tempmail.org", "10minutemail.com", "guerrillamail.com"]

/-- Source: `validators_common.enhanced_email_validation` (the email
validator used by both execution paths; `email.split('@')[1]`). -/
def enhanced_email_validation (email : String) : Option String :=
  match is_valid_email email with
  | some e => some e
  | none =>
    let e := pyLower (pyStrip email)
    let domain : String := ⟨((splitOnChar '@' e.data)[1]?).getD []⟩
    if disposable_domains.contains domain then
      some "Disposable email addresses are not allowed"
    else none

/-- Source: `validators_common.validate_citizenship`. -/
def validate_citizenship (citizenship : String) : Option String :=
  if citizenship = "" then some "Citizenship is empty"
  else if matchTwoUpper (pyUpper (pyStrip citizenship)) then none
  else some "Citizenship must be 2 uppercase letters"

/-- Source: `validators_common.validate_regioncode`. -/
def validate_regioncode (regioncode : String) : Option String :=
  if regioncode = "" then some "Region code is empty"
  else if matchRegionPattern (pyStrip regioncode) then none
  else some "Region code contains invalid characters or is too long"

/-- Source: `validators_common.validate_provincecode`. -/
def validate_provincecode (provincecode : String) : Option String :=
  if provincecode = "" then some "Province code is empty"
  else if matchRegionPattern (pyStrip provincecode) then none
  else some "Province code contains invalid characters or is too long"

/-- Source: `validators_common.validate_province`. -/
def validate_province (province : String) : Option String :=
  if province = "" then some "Province is empty"
  else
    let p := pyStrip province
    if p.length < 2 then some "Province name too short"
    else if p.length > 50 then some "Province name too long"
    else if matchNamePattern p then none
    else some "Province contains invalid characters"

/-- Source: `validators_common.validate_personalid` (the default personal
ID validator). -/
def validate_personalid (personalid : String) : Option String :=
  if personalid = "" then some "Personal ID is empty"
  else
    let p := pyStrip personalid
    if p.length < 5 then some "Personal ID too short"
    else if p.length > 20 then some "Personal ID too long"
    else if matchPersonalPattern p then none
    else some "Personal ID contains invalid characters"

/-- Source: `validators_common.validate_idcardno`. -/
def validate_idcardno (idcardno : String) : Option String :=
  if idcardno = "" then some "ID card number is empty"
  else
    let i := pyStrip idcardno
    if i.length < 5 then some "ID card number too short"
    else if i.length > 20 then some "ID card number too long"
    else if matchPersonalPattern i then none
    else some "ID card number contains invalid characters"

end ValidatorsCommon

namespace Validators

/-- Source: `validators.validate_phone_number` (the digits-and-plus
validator of `validators.py`; that module is not imported by `app.py` or
`parallel_validator.py`). -/
def validate_phone_number (phone : String) : Option String :=
  if phone = "" then none
  else
    let p := pyStrip phone
    if ' ' ∈ p.data then some "Phone contains spaces"
    else if p.data.all (fun c => c.isDigit || c = '+') then none
    else some "Phone contains invalid characters"

end Validators

namespace ValidatorsPeru

/-- Source: `validators_peru.validate_peru_personalid`. -/
def validate_peru_personalid (personalid citizenship : String) : Option String :=
  if citizenship = "" then some "Citizenship is required for PersonalID validation"
  else if pyUpper (pyStrip citizenship) = "ES" then
    if personalid = "" then
      some "PersonalID is mandatory for Spanish residents (DNI or NIE required)"
    else
      let p := pyUpper (pyStrip personalid)
      if matchDNI p then none
      else if matchNIE p then none
      else some "Invalid Spanish ID format. Must be DNI (8 digits + letter) or NIE (X/Y/Z + 7 digits + letter)"
  else
    if personalid = "" then none
    else
      let p := pyStrip personalid
      if p.length < 5 then some "PersonalID is too short (minimum 5 characters)"
      else if p.length > 20 then some "PersonalID is too long (maximum 20 characters)"
      else if matchPersonalPattern p then none
      else some "PersonalID contains invalid characters"

/-- Source: `validators_peru.validate_peru_documents`.  The document keys,
in dict order, are `idcardno`, `passportid`, `DRIVERLICENSENO`,
`personalid`; a document counts as provided when its raw value and its
stripped value are both truthy. -/
def validate_peru_documents (row : Row) : Option String :=
  let citizenship := Row.get row "citizenship"
  if citizenship = "" then none
  else if pyUpper (pyStrip citizenship) = "ES" then none
  else
    let documents := [Row.get row "idcardno", Row.get row "passportid",
      Row.get row "DRIVERLICENSENO", Row.get row "personalid"]
    let provided := documents.filter (fun d => !(d = "") && !(pyStrip d = ""))
    if provided = [] then
      some "Non-residents must provide at least one document: ID card, passport, driver's license, or personal ID"
    else none

/-- Source: `validators_peru.validate_peru_zip`. -/
def validate_peru_zip (zip : String) : Option String :=
  if zip = "" then some "Zip code is empty"
  else
    let z := pyStrip zip
    if matchLimaZip (pyUpper z) then none
    else if matchDigits 5 z then none
    else if matchDigits 6 z then none
    else some "Peru zip code must be 5 digits, 6 digits, or LIMA format (LIMAxx)"

end ValidatorsPeru

namespace ValidatorsColombia

/-- Source: `validators_colombia.validate_colombia_personalid` (delegates
to the generic default validator). -/
def validate_colombia_personalid (personalid : String) : Option String :=
  ValidatorsCommon.validate_personalid personalid

end ValidatorsColombia

namespace ValidatorsIms

/-- Source: `validators_ims.validate_ims_personalid` (delegates to the
generic default validator). -/
def validate_ims_personalid (personalid : String) : Option String :=
  ValidatorsCommon.validate_personalid personalid

end ValidatorsIms

namespace ValidatorRegistry

/-- The `personalid` entries of `ValidatorRegistry.regulation_validators`,
keyed by regulation name. -/
inductive RegisteredPid
  | peru
  | colombia
  | ims
deriving Repr, DecidableEq

/-- Model of `validator_registry.get_validator(name, 'personalid')`. -/
def getPidValidator : Option String → Option RegisteredPid
  | some "Peru" => some RegisteredPid.peru
  | some "Colombia" => some RegisteredPid.colombia
  | some "IMS" => some RegisteredPid.ims
  | _ => none

/-- Model of
`validator_registry.has_conditional_validation(name, 'personalid')`:
only Peru registers a conditional entry, with `depends_on: citizenship`. -/
def personalidIsConditional (regName : Option String) : Bool :=
  regName = some "Peru"

/-- Model of `validator_registry.get_validator(name, 'zip')`: only Peru
registers a zip override. -/
def getZipValidator : Option String → Option (String → Option String)
  | some "Peru" => some ValidatorsPeru.validate_peru_zip
  | _ => none

/-- Model of `validator_registry.get_validator(name, 'documents')`: only
Peru registers a document-presence rule. -/
def getDocumentsValidator : Option String → Option (Row → Option String)
  | some "Peru" => some ValidatorsPeru.validate_peru_documents
  | _ => none

end ValidatorRegistry

/-- Per-row validation outcome, the dictionary built by
`validate_single_row` and by the per-row loop of the `/validate` route:
`{'row': index + 1, 'code': ..., 'valid': ..., 'errors': [...]}`. -/
structure ValidationResult where
  row : Nat
  code : String
  valid : Bool
  errors : List String
deriving Repr, DecidableEq

namespace ParallelValidator

/-- Source: `parallel_validator.enhance_error_with_value` (the
`field_name` argument is unused in the source body). -/
def enhance_error_with_value (error_message _fieldName field_value : String) : String :=
  error_message ++ ": " ++ quoted (pyStrip field_value)

/-- Source: `parallel_validator._validate_field`, the field-name dispatch
of the parallel path.  `regName` is `selected_regulation.get('name')`
(`none` when no regulation is selected); `today` is the ambient clock. -/
def validateField (today : PyDate) (regName : Option String) (row_data : Row)
    (field_lower value : String) : Option String :=
  if field_lower = "email" then
    ValidatorsCommon.enhanced_email_validation value
  else if field_lower = "birthdate" then
    (ValidatorsCommon.is_invalid_birthdate today value 18).map
      (fun e => "Birthdate: " ++ e)
  else if field_lower = "phone" ∨ field_lower = "cellphone" then
    (ValidatorsCommon.validate_phone_number value).map
      (fun e => field_lower ++ ": " ++ e)
  else if field_lower = "firstname" ∨ field_lower = "lastname" then
    match ValidatorsCommon.validate_name 50 value with
    | some e => some e
    | none => ValidatorsCommon.validate_name_length 1 50 value
  else if field_lower = "regioncode" then
    (ValidatorsCommon.validate_regioncode value).map
      (fun e => "regioncode: " ++ e)
  else if field_lower = "provincecode" then
    (ValidatorsCommon.validate_provincecode value).map
      (fun e => "provincecode: " ++ e)
  else if field_lower = "province" then
    (ValidatorsCommon.validate_province value).map
      (fun e => "province: " ++ e)
  else if field_lower = "personalid" then
    let err :=
      match ValidatorRegistry.getPidValidator regName with
      | some ValidatorRegistry.RegisteredPid.peru =>
        ValidatorsPeru.validate_peru_personalid value (Row.get row_data "citizenship")
      | some ValidatorRegistry.RegisteredPid.colombia =>
        ValidatorsColombia.validate_colombia_personalid value
      | some ValidatorRegistry.RegisteredPid.ims =>
        ValidatorsIms.validate_ims_personalid value
      | none => ValidatorsCommon.validate_personalid value
    err.map (fun e => "personalid: " ++ e)
  else if field_lower = "idcardno" then
    (ValidatorsCommon.validate_idcardno value).map
      (fun e => "idcardno: " ++ e)
  else if field_lower = "citizenship" then
    (ValidatorsCommon.validate_citizenship value).map
      (fun e => "citizenship: " ++ e)
  else if field_lower = "signupdate" then
    (ValidatorsCommon.validate_signup_date today value).map
      (fun e => "signupdate: " ++ e)
  else if field_lower = "address" then
    (ValidatorsCommon.check_for_crlf value).map
      (fun e => "address: " ++ e)
  else if field_lower = "countrycode" then
    (ValidatorsCommon.validate_country_code value).map
      (fun e => "countrycode: " ++ e)
  else if field_lower = "zipcode" ∨ field_lower = "postalcode" ∨
      field_lower = "zip" ∨ field_lower = "postcode" then
    let err :=
      match ValidatorRegistry.getZipValidator regName with
      | some f => f value
      | none => ValidatorsCommon.validate_zip_code value
    err.map (fun e => field_lower ++ ": " ++ e)
  else if field_lower = "signuplanguagecode" then
    (ValidatorsCommon.validate_language_code value).map
      (fun e => "signuplanguagecode: " ++ e)
  else if field_lower = "currencycode" then
    (ValidatorsCommon.validate_currency_code value).map
      (fun e => "currencycode: " ++ e)
  else none

/-- Source: `parallel_validator._validate_cross_fields` (address/city
consistency, language/country consistency, regulation document rule). -/
def validateCrossFields (regName : Option String) (row_data : Row) : List String :=
  ValidatorsCommon.validate_address_fields row_data ++
  ValidatorsCommon.validate_language_country_consistency row_data ++
  (match ValidatorRegistry.getDocumentsValidator regName with
   | some f =>
     match f row_data with
     | some e => [e]
     | none => []
   | none => [])

/-- One step of the error/valid accumulation of the row validators: the
source appends each produced error and sets `is_valid = False` alongside,
so a step leaves `is_valid` untouched exactly when it contributes no
error. -/
def rowAccum (st : List String × Bool) (contrib : List String) : List String × Bool :=
  (st.1 ++ contrib, st.2 && contrib.isEmpty)

/-- Errors contributed by one `(field, value)` entry of the per-field loop
of `validate_single_row`: the required-column filter, the Peru personalid
conditional exception, the required-but-missing check, then the dispatch
to `_validate_field` with the error wrapped as
`f"{code_value} {field}: {enhanced_error}"`. -/
def fieldEntryErrors (today : PyDate) (regName : Option String)
    (reqLower : List String) (row_data : Row) (code_value : String)
    (kv : String × String) : List String :=
  let field := kv.1
  let value := kv.2
  if !(reqLower.contains (pyLower field)) then []
  else if pyLower field = "personalid" ∧ regName = some "Peru" then
    let citizenship := Row.get row_data "citizenship"
    if pyUpper (pyStrip citizenship) = "ES" ∧ pyStrip value = "" then
      [code_value ++ " " ++ field ++ " is required for Spanish residents"]
    else if pyStrip value = "" then []
    else
      match validateField today regName row_data (pyLower field) value with
      | some error =>
        [code_value ++ " " ++ field ++ ": " ++ enhance_error_with_value error field value]
      | none => []
  else if pyStrip value = "" then
    [code_value ++ " " ++ field ++ " is required but missing"]
  else
    match validateField today regName row_data (pyLower field) value with
    | some error =>
      [code_value ++ " " ++ field ++ ": " ++ enhance_error_with_value error field value]
    | none => []

/-- Source: `parallel_validator.validate_single_row`.  The row's entries
are iterated in order (`for field in row_data.keys()`), the cross-field
errors are appended last, each error is prefixed with the row's `code`
value, and the result's `row` field is the 0-based index plus one. -/
def validate_single_row (today : PyDate) (row_data : Row) (row_index : Nat)
    (required_columns : List String) (regName : Option String) : ValidationResult :=
  let code_value := Row.getD row_data "code" "N/A"
  let reqLower := required_columns.map pyLower
  let afterFields := row_data.foldl
    (fun st kv => rowAccum st (fieldEntryErrors today regName reqLower row_data code_value kv))
    ([], true)
  let cross := (validateCrossFields regName row_data).map (fun e => code_value ++ " " ++ e)
  let final := rowAccum afterFields cross
  { row := row_index + 1, code := code_value, valid := final.2, errors := final.1 }

end ParallelValidator

/-- Map with a running global index, starting at `start`. -/
def mapIdxFrom {β : Type} (f : Nat → Row → β) : Nat → List Row → List β
  | _, [] => []
  | n, r :: rs => f n r :: mapIdxFrom f (n + 1) rs

namespace DataProcessor

/-- Value-to-index-list map, the per-field dictionaries of the duplicate
trackers. -/
abbrev TrackMap := List (String × List Nat)

/-- Dict assignment of a fresh key (Python inserts at the end). -/
def insertNew (m : TrackMap) (k : String) (v : List Nat) : TrackMap := m ++ [(k, v)]

/-- In-place `dict[k].append(i)`. -/
def updateAppend (m : TrackMap) (k : String) (i : Nat) : TrackMap :=
  m.map (fun p => if p.1 = k then (p.1, p.2 ++ [i]) else p)

/-- Record one normalized value at one global index, the
append-or-insert step of `_track_duplicates_in_chunk`. -/
def trackValue (m : TrackMap) (v : String) (idx : Nat) : TrackMap :=
  match alookup v m with
  | some _ => updateAppend m v idx
  | none => insertNew m v [idx]

/-- The four per-field dictionaries of the chunk duplicate tracker
(`emails`, `usernames`, `personalids`, `idcardnos`). -/
structure DupTracking where
  emails : TrackMap
  usernames : TrackMap
  personalids : TrackMap
  idcardnos : TrackMap
deriving Repr, DecidableEq

/-- Empty tracker. -/
def emptyTracking : DupTracking := ⟨[], [], [], []⟩

/-- One field of `_track_duplicates_in_chunk`: every tracked field is
normalized with `str(row[field]).strip().lower()` (the chunked path
lowercases all four fields), and empty normalized values are skipped. -/
def trackField (m : TrackMap) (row : Row) (key : String) (idx : Nat) : TrackMap :=
  if rowHasTruthy row key then
    let value := pyLower (pyStrip (Row.get row key))
    if value = "" then m else trackValue m value idx
  else m

/-- Source: `OptimizedDataProcessor._track_duplicates_in_chunk`. -/
def track_duplicates_in_chunk (row : Row) (idx : Nat) (t : DupTracking) : DupTracking :=
  { emails := trackField t.emails row "email" idx,
    usernames := trackField t.usernames row "username" idx,
    personalids := trackField t.personalids row "personalid" idx,
    idcardnos := trackField t.idcardnos row "idcardno" idx }

/-- Duplicate tracking over a chunk, indices offset by the chunk start. -/
def trackChunkFrom : DupTracking → Nat → List Row → DupTracking
  | t, _, [] => t
  | t, start, r :: rs => trackChunkFrom (track_duplicates_in_chunk r start t) (start + 1) rs

/-- Python `collections.Counter` as an association list. -/
abbrev Counter := List (String × Nat)

/-- `counter[k] += 1`. -/
def counterAdd (c : Counter) (k : String) : Counter :=
  match alookup k c with
  | some _ => c.map (fun p => if p.1 = k then (p.1, p.2 + 1) else p)
  | none => c ++ [(k, 1)]

/-- Count every element of a list. -/
def counterAddList (c : Counter) (ks : List String) : Counter := ks.foldl counterAdd c

/-- `Counter.update`: add the counts of `d` into `c`. -/
def counterMerge (c d : Counter) : Counter :=
  d.foldl
    (fun acc p =>
      match alookup p.1 acc with
      | some _ => acc.map (fun q => if q.1 = p.1 then (q.1, q.2 + p.2) else q)
      | none => acc ++ [p])
    c

/-- The per-chunk result bundle of `_validate_chunk`. -/
structure ChunkResult where
  results : List ValidationResult
  error_counter : Counter
  duplicate_tracking : DupTracking
  start_idx : Nat
  chunk_size : Nat
deriving Repr, DecidableEq

/-- Source: `OptimizedDataProcessor._validate_chunk` with
`validation_func = validate_single_row`: every row is validated at its
global index, errors of invalid rows are tallied, and duplicates are
tracked chunk-locally (with global indices). -/
def validate_chunk (today : PyDate) (regName : Option String)
    (required_columns : List String) (chunk : List Row) (start_idx : Nat) : ChunkResult :=
  let results := mapIdxFrom
    (fun i row => ParallelValidator.validate_single_row today row i required_columns regName)
    start_idx chunk
  { results := results,
    error_counter := results.foldl
      (fun c r => if r.valid then c else counterAddList c r.errors) [],
    duplicate_tracking := trackChunkFrom emptyTracking start_idx chunk,
    start_idx := start_idx,
    chunk_size := chunk.length }

/-- Per-field duplicate counts of the combined result. -/
structure DupCounts where
  emails : Nat
  usernames : Nat
  personalids : Nat
  idcardnos : Nat
deriving Repr, DecidableEq

/-- Merge one chunk-local tracking map into the global one: per value,
extend the global index list or insert the chunk's list. -/
def mergeTrackMap (globalMap chunkMap : TrackMap) : TrackMap :=
  chunkMap.foldl
    (fun g p =>
      match alookup p.1 g with
      | some _ => g.map (fun q => if q.1 = p.1 then (q.1, q.2 ++ p.2) else q)
      | none => g ++ [p])
    globalMap

/-- Merge the four tracking maps of one chunk. -/
def mergeTracking (g c : DupTracking) : DupTracking :=
  { emails := mergeTrackMap g.emails c.emails,
    usernames := mergeTrackMap g.usernames c.usernames,
    personalids := mergeTrackMap g.personalids c.personalids,
    idcardnos := mergeTrackMap g.idcardnos c.idcardnos }

/-- Number of values whose merged index list has more than one entry. -/
def countTrueDuplicates (m : TrackMap) : Nat :=
  (m.filter (fun p => decide (1 < p.2.length))).length

/-- The merged result dictionary of `_combine_validation_results` (the
`error_counts` tally is kept unsorted here; the source only reorders it
with `most_common()` for display). -/
structure CombinedResult where
  total_rows : Nat
  valid_rows : Nat
  invalid_rows : Nat
  error_counts : Counter
  duplicate_counts : DupCounts
  results : List ValidationResult
  global_duplicates : DupTracking
deriving Repr, DecidableEq

/-- Source: `OptimizedDataProcessor._combine_validation_results`: chunk
row-results are concatenated in chunk order, tallies are summed, the
duplicate-tracking fragments are merged by extending per-value index
lists, and true duplicate counts are recomputed from the merged maps. -/
def combine_validation_results (chunk_results : List ChunkResult) : CombinedResult :=
  let all_results := (chunk_results.map (fun c => c.results)).flatten
  let globalDup := chunk_results.foldl
    (fun acc c => mergeTracking acc c.duplicate_tracking) emptyTracking
  let valid_rows := (all_results.filter (fun r => r.valid)).length
  { total_rows := all_results.length,
    valid_rows := valid_rows,
    invalid_rows := all_results.length - valid_rows,
    error_counts := chunk_results.foldl (fun acc c => counterMerge acc c.error_counter) [],
    duplicate_counts :=
      { emails := countTrueDuplicates globalDup.emails,
        usernames := countTrueDuplicates globalDup.usernames,
        personalids := countTrueDuplicates globalDup.personalids,
        idcardnos := countTrueDuplicates globalDup.idcardnos },
    results := all_results,
    global_duplicates := globalDup }

/-- Chunk splitting by structural recursion on a fuel bound (the row
count bounds the chunk count, since every chunk of a positive chunk size
takes at least one row); keeps the model computable by the kernel. -/
def splitFromAux (chunk_size : Nat) : Nat → Nat → List Row → List (List Row × Nat)
  | _, _, [] => []
  | 0, _, _ :: _ => []
  | fuel + 1, start, r :: rest =>
    ((r :: rest).take chunk_size, start) ::
      splitFromAux chunk_size fuel (start + chunk_size) ((r :: rest).drop chunk_size)

/-- Source: `OptimizedDataProcessor._split_dataframe`: consecutive chunks
of `chunk_size` rows tagged with their global start index (a zero chunk
size is a configuration error in the source: the model yields no chunks
for it, as the fuel is consumed without progress). -/
def splitFrom (chunk_size start : Nat) (rows : List Row) : List (List Row × Nat) :=
  splitFromAux chunk_size rows.length start rows

/-- Source: `OptimizedDataProcessor.validate_dataframe_parallel` with
`validation_func = validate_single_row`: split into chunks, validate each
chunk independently, combine. -/
def validate_dataframe_parallel (today : PyDate) (regName : Option String)
    (required_columns : List String) (chunk_size : Nat) (rows : List Row) : CombinedResult :=
  combine_validation_results
    ((splitFrom chunk_size 0 rows).map
      (fun p => validate_chunk today regName required_columns p.1 p.2))

/-- Duplicate tracking of one field over a row list, the single-field
projection of `trackChunkFrom`. -/
def trackFieldRows (key : String) : TrackMap → Nat → List Row → TrackMap
  | m, _, [] => m
  | m, start, r :: rs => trackFieldRows key (trackField m r key start) (start + 1) rs

/-- Global occurrence list of normalized value `v` for tracked field
`key` under the chunked path's normalization (strip and lowercase): the
ascending list of row indices whose `key` entry is present, truthy, and
normalizes to `v`. -/
def parOccList (rows : List Row) (key v : String) : List Nat :=
  (List.range rows.length).filter
    (fun i =>
      match rows[i]? with
      | some r => rowHasTruthy r key && decide (pyLower (pyStrip (Row.get r key)) = v)
      | none => false)

/-- The four tracked-field keys of the chunked path in source order. -/
def trackKeys : List String := ["email", "username", "personalid", "idcardno"]

/-- The per-field tracking map of the chunk duplicate tracker. -/
def readTrack (t : DupTracking) (key : String) : TrackMap :=
  if key = "email" then t.emails
  else if key = "username" then t.usernames
  else if key = "personalid" then t.personalids
  else t.idcardnos

/-- The per-field merged duplicate count. -/
def readCount (d : DupCounts) (key : String) : Nat :=
  if key = "email" then d.emails
  else if key = "username" then d.usernames
  else if key = "personalid" then d.personalids
  else d.idcardnos

/-- Ascending occurrence list of normalized value `v` for field `key`
over a row segment whose first row sits at global index `start`: the
segment-level, structurally recursive counterpart of `parOccList`. -/
def localOcc (key v : String) : Nat → List Row → List Nat
  | _, [] => []
  | start, r :: rs =>
    (if rowHasTruthy r key && decide (pyLower (pyStrip (Row.get r key)) = v)
      then [start] else []) ++ localOcc key v (start + 1) rs

end DataProcessor

namespace App

/-- Fallback required-column list of the `/validate` route. -/
def defaultRequiredColumns : List String :=
  ["code", "firstname", "lastname", "email", "birthdate", "address", "city",
   "phone", "cellphone", "countrycode", "signuplanguagecode", "currencycode",
   "username", "zip", "signupdate", "password"]

/-- The `required_fields` list of `REGULATIONS["PE"]` in `app.py`. -/
def peruRequiredFields : List String :=
  ["code", "firstname", "lastname", "email", "birthdate", "address", "city",
   "countrycode", "zip", "username", "citizenship", "provincecode", "province",
   "personalid", "idcardno", "regioncode"]

/-- Sequential-path state for one tracked field: the first-seen-index
dictionary (`email_indices` and friends) and the duplicate dictionary
(`duplicate_emails` and friends). -/
structure TrackState where
  indices : List (String × Nat)
  dups : DataProcessor.TrackMap
deriving Repr, DecidableEq

/-- Empty per-field state. -/
def emptyTrack : TrackState := ⟨[], []⟩

/-- Record one normalized value at one index, the tracking block of the
first per-chunk pass of `/validate`: a first occurrence only sets the
index dictionary; a repeat creates the duplicate entry seeded with the
first index (if absent) and appends the current index. -/
def trackValue (st : TrackState) (v : String) (idx : Nat) : TrackState :=
  match alookup v st.indices with
  | some first =>
    match alookup v st.dups with
    | some _ => { st with dups := DataProcessor.updateAppend st.dups v idx }
    | none =>
      { st with
        dups := DataProcessor.updateAppend
          (DataProcessor.insertNew st.dups v [first]) v idx }
  | none => { st with indices := st.indices ++ [(v, idx)] }

/-- One duplicate-tracked field of the sequential path: the row key, the
error label, and whether normalization lowercases (`email`/`username`) or
only strips (`personalid`/`idcardno`). -/
structure FieldDesc where
  key : String
  label : String
  lowercase : Bool
deriving Repr, DecidableEq

/-- Normalization of one tracked field in the sequential path. -/
def FieldDesc.norm (fd : FieldDesc) (s : String) : String :=
  if fd.lowercase then pyLower (pyStrip s) else pyStrip s

/-- Email tracking: `str(row['email']).strip().lower()`. -/
def fdEmail : FieldDesc := ⟨"email", "email", true⟩

/-- Username tracking: `str(row['username']).strip().lower()`. -/
def fdUsername : FieldDesc := ⟨"username", "username", true⟩

/-- Personal-ID tracking: `str(row['personalid']).strip()` (no
lowercasing in the sequential path). -/
def fdPersonalid : FieldDesc := ⟨"personalid", "personal ID", false⟩

/-- ID-card tracking: `str(row['idcardno']).strip()` (no lowercasing in
the sequential path). -/
def fdIdcardno : FieldDesc := ⟨"idcardno", "ID card number", false⟩

/-- The four tracked fields in source order. -/
def trackedFields : List FieldDesc := [fdEmail, fdUsername, fdPersonalid, fdIdcardno]

/-- The whole duplicate-tracking state of the `/validate` route. -/
structure DupState where
  emails : TrackState
  usernames : TrackState
  personalids : TrackState
  idcardnos : TrackState
deriving Repr, DecidableEq

/-- Empty tracking state. -/
def emptyDupState : DupState := ⟨emptyTrack, emptyTrack, emptyTrack, emptyTrack⟩

/-- The per-field component of the tracking state. -/
def readField (st : DupState) (fd : FieldDesc) : TrackState :=
  if fd.key = "email" then st.emails
  else if fd.key = "username" then st.usernames
  else if fd.key = "personalid" then st.personalids
  else st.idcardnos

/-- Track one field of one row (`if key in row and row[key]:`). -/
def trackFieldRow (ts : TrackState) (fd : FieldDesc) (row : Row) (idx : Nat) : TrackState :=
  if rowHasTruthy row fd.key then
    trackValue ts (fd.norm (Row.get row fd.key)) idx
  else ts

/-- First-pass tracking of one row for all four fields. -/
def trackRow (st : DupState) (row : Row) (idx : Nat) : DupState :=
  { emails := trackFieldRow st.emails fdEmail row idx,
    usernames := trackFieldRow st.usernames fdUsername row idx,
    personalids := trackFieldRow st.personalids fdPersonalid row idx,
    idcardnos := trackFieldRow st.idcardnos fdIdcardno row idx }

/-- First-pass tracking of a chunk, indices starting at `start`. -/
def trackRowsFrom : DupState → Nat → List Row → DupState
  | st, _, [] => st
  | st, start, r :: rs => trackRowsFrom (trackRow st r start) (start + 1) rs

/-- First-pass tracking of one field over a row list, the single-field
projection of `trackRowsFrom`. -/
def trackFieldRows (fd : FieldDesc) : TrackState → Nat → List Row → TrackState
  | ts, _, [] => ts
  | ts, start, r :: rs => trackFieldRows fd (trackFieldRow ts fd r start) (start + 1) rs

/-- Tracking state after the first `n` rows of the dataset. -/
def dupStateUpTo (rows : List Row) (n : Nat) : DupState :=
  trackRowsFrom emptyDupState 0 (rows.take n)

/-- Duplicate check for one tracked field of one row in the second
per-chunk pass of `/validate`: a row whose normalized value is in the
duplicate dictionary is flagged unless it is the recorded first
occurrence; the message back-references the first occurrence's 1-based
row number. -/
def dupFieldErrors (fd : FieldDesc) (ts : TrackState) (row : Row) (idx : Nat)
    (code_value : String) : List String :=
  if rowHasTruthy row fd.key then
    let v := fd.norm (Row.get row fd.key)
    match alookup v ts.dups with
    | some lst =>
      if lst.headD 0 ≠ idx then
        [code_value ++ " Duplicate " ++ fd.label ++ ": " ++ v ++
          " (also in row " ++ toString (lst.headD 0 + 1) ++ ")"]
      else []
    | none => []
  else []

/-- The four duplicate checks of one row, in source order. -/
def dupErrors (st : DupState) (row : Row) (idx : Nat) (code_value : String) : List String :=
  dupFieldErrors fdEmail st.emails row idx code_value ++
  dupFieldErrors fdUsername st.usernames row idx code_value ++
  dupFieldErrors fdPersonalid st.personalids row idx code_value ++
  dupFieldErrors fdIdcardno st.idcardnos row idx code_value

/-- The field-dispatch chain of the `/validate` per-row loop for one
non-missing value, with the route's own message formats (the generic
`Invalid birthdate` message, unenhanced region/province/zip messages,
separately appended name and name-length errors). -/
def appFieldErrors (today : PyDate) (regName : Option String) (row : Row)
    (code_value field value : String) : List String :=
  let field_lower := pyLower field
  if field_lower = "email" then
    match ValidatorsCommon.enhanced_email_validation value with
    | some e =>
      [code_value ++ " " ++ ParallelValidator.enhance_error_with_value e "email" value]
    | none => []
  else if field_lower = "birthdate" then
    match ValidatorsCommon.is_invalid_birthdate today value 18 with
    | some _ => [code_value ++ " Invalid birthdate"]
    | none => []
  else if field_lower = "phone" ∨ field_lower = "cellphone" then
    match ValidatorsCommon.validate_phone_number value with
    | some e =>
      [code_value ++ " " ++ field ++ ": " ++
        ParallelValidator.enhance_error_with_value e field value]
    | none => []
  else if field_lower = "firstname" then
    (match ValidatorsCommon.validate_name 50 value with
     | some e =>
       [code_value ++ " firstname: " ++
         ParallelValidator.enhance_error_with_value e "firstname" value]
     | none => []) ++
    (match ValidatorsCommon.validate_name_length 1 50 value with
     | some e =>
       [code_value ++ " firstname: " ++
         ParallelValidator.enhance_error_with_value e "firstname" value]
     | none => [])
  else if field_lower = "regioncode" then
    match ValidatorsCommon.validate_regioncode value with
    | some e => [code_value ++ " regioncode: " ++ e]
    | none => []
  else if field_lower = "provincecode" then
    match ValidatorsCommon.validate_provincecode value with
    | some e => [code_value ++ " provincecode: " ++ e]
    | none => []
  else if field_lower = "province" then
    match ValidatorsCommon.validate_province value with
    | some e => [code_value ++ " province: " ++ e]
    | none => []
  else if field_lower = "personalid" then
    let err :=
      match ValidatorRegistry.getPidValidator regName with
      | some ValidatorRegistry.RegisteredPid.peru =>
        ValidatorsPeru.validate_peru_personalid value (Row.get row "citizenship")
      | some ValidatorRegistry.RegisteredPid.colombia =>
        ValidatorsColombia.validate_colombia_personalid value
      | some ValidatorRegistry.RegisteredPid.ims =>
        ValidatorsIms.validate_ims_personalid value
      | none => ValidatorsCommon.validate_personalid value
    match err with
    | some e =>
      [code_value ++ " personalid: " ++
        ParallelValidator.enhance_error_with_value e "personalid" value]
    | none => []
  else if field_lower = "idcardno" then
    match ValidatorsCommon.validate_idcardno value with
    | some e =>
      [code_value ++ " idcardno: " ++
        ParallelValidator.enhance_error_with_value e "idcardno" value]
    | none => []
  else if field_lower = "citizenship" then
    match ValidatorsCommon.validate_citizenship value with
    | some e => [code_value ++ " citizenship: " ++ e]
    | none => []
  else if field_lower = "signupdate" then
    match ValidatorsCommon.validate_signup_date today value with
    | some e => [code_value ++ " signupdate: " ++ e]
    | none => []
  else if field_lower = "lastname" then
    (match ValidatorsCommon.validate_name 50 value with
     | some e =>
       [code_value ++ " lastname: " ++
         ParallelValidator.enhance_error_with_value e "lastname" value]
     | none => []) ++
    (match ValidatorsCommon.validate_name_length 1 50 value with
     | some e =>
       [code_value ++ " lastname: " ++
         ParallelValidator.enhance_error_with_value e "lastname" value]
     | none => [])
  else if field_lower = "address" then
    match ValidatorsCommon.check_for_crlf value with
    | some e => [code_value ++ " address: " ++ e]
    | none => []
  else if field_lower = "countrycode" then
    match ValidatorsCommon.validate_country_code value with
    | some e => [code_value ++ " countrycode: " ++ e]
    | none => []
  else if field_lower = "zipcode" ∨ field_lower = "postalcode" ∨
      field_lower = "zip" ∨ field_lower = "postcode" then
    let err :=
      match ValidatorRegistry.getZipValidator regName with
      | some f => f value
      | none => ValidatorsCommon.validate_zip_code value
    match err with
    | some e => [code_value ++ " " ++ field ++ ": " ++ e]
    | none => []
  else if field_lower = "signuplanguagecode" then
    match ValidatorsCommon.validate_language_code value with
    | some e => [code_value ++ " signuplanguagecode: " ++ e]
    | none => []
  else if field_lower = "currencycode" then
    match ValidatorsCommon.validate_currency_code value with
    | some e => [code_value ++ " currencycode: " ++ e]
    | none => []
  else []

/-- Errors contributed by one `(field, value)` entry of the `/validate`
per-row loop: the required-column filter, the Peru personalid conditional
exception, the required-but-missing check, then the field dispatch. -/
def appFieldEntryErrors (today : PyDate) (regName : Option String)
    (reqLower : List String) (row : Row) (code_value : String)
    (kv : String × String) : List String :=
  let field := kv.1
  let value := kv.2
  if !(reqLower.contains (pyLower field)) then []
  else if pyLower field = "personalid" ∧ regName = some "Peru" then
    let citizenship := Row.get row "citizenship"
    if pyUpper (pyStrip citizenship) = "ES" ∧ pyStrip value = "" then
      [code_value ++ " " ++ field ++ " is required for Spanish residents"]
    else if pyStrip value = "" then []
    else appFieldErrors today regName row code_value field value
  else if pyStrip value = "" then
    [code_value ++ " " ++ field ++ " is required but missing"]
  else appFieldErrors today regName row code_value field value

/-- One row of the second per-chunk pass of `/validate`: the four
duplicate checks first, then the per-field loop, then the cross-field
checks, accumulating errors and the validity flag exactly as the source
appends them. -/
def validateRowApp (today : PyDate) (regName : Option String) (reqLower : List String)
    (st : DupState) (row : Row) (idx : Nat) : ValidationResult :=
  let code_value := Row.getD row "code" "N/A"
  let afterDup := ParallelValidator.rowAccum ([], true) (dupErrors st row idx code_value)
  let afterFields := row.foldl
    (fun acc kv =>
      ParallelValidator.rowAccum acc (appFieldEntryErrors today regName reqLower row code_value kv))
    afterDup
  let cross := (ParallelValidator.validateCrossFields regName row).map
    (fun e => code_value ++ " " ++ e)
  let final := ParallelValidator.rowAccum afterFields cross
  { row := idx + 1, code := code_value, valid := final.2, errors := final.1 }

/-- Chunk loop of the `/validate` route by structural recursion on a fuel
bound (the row count bounds the chunk count): each 5000-row chunk is
tracked in full (first pass) and only then validated (second pass), so
every row is validated against the tracking state of all rows up to the
end of its own chunk. -/
def routeGoAux (today : PyDate) (regName : Option String) (reqLower : List String) :
    Nat → List Row → Nat → DupState → List ValidationResult
  | _, [], _, _ => []
  | 0, _ :: _, _, _ => []
  | fuel + 1, r :: rest, done, st =>
    let t := r :: rest
    let chunk := t.take 5000
    let st2 := trackRowsFrom st done chunk
    (mapIdxFrom (fun i row => validateRowApp today regName reqLower st2 row i) done chunk) ++
      routeGoAux today regName reqLower fuel (t.drop 5000) (done + chunk.length) st2

/-- Chunk loop of the `/validate` route, with the fuel instantiated to
the row count. -/
def routeGo (today : PyDate) (regName : Option String) (reqLower : List String)
    (todo : List Row) (done : Nat) (st : DupState) : List ValidationResult :=
  routeGoAux today regName reqLower todo.length todo done st

/-- Source: the core of the `/validate` route of `app.py`, over the
already column-mapped rows: chunked two-pass duplicate tracking and
per-row validation with the route's fixed chunk size of 5000. -/
def validateRoute (today : PyDate) (regName : Option String)
    (required_columns : List String) (rows : List Row) : List ValidationResult :=
  routeGo today regName (required_columns.map pyLower) rows 0 emptyDupState

/-- Whether row `i` of the dataset is an occurrence of normalized value
`v` for tracked field `fd` under the sequential path's normalization. -/
def occP (fd : FieldDesc) (v : String) (row : Row) : Bool :=
  rowHasTruthy row fd.key && decide (fd.norm (Row.get row fd.key) = v)

/-- Ascending list of the indices among the first `n` rows that are
occurrences of normalized value `v` for tracked field `fd`. -/
def occList (fd : FieldDesc) (rows : List Row) (n : Nat) (v : String) : List Nat :=
  (List.range n).filter
    (fun i =>
      match rows[i]? with
      | some r => occP fd v r
      | none => false)

end App

/-- A two-row dataset whose rows share one email value, the smallest
duplicate group. -/
def rows2dup : List Row := [[("email", "a@b.com")], [("email", "a@b.com")]]

/-! Helper lemmas about the association-list, indexing and accumulation
primitives of the embedding. -/

theorem alookup_append {β : Type} (k : String) (m1 m2 : List (String × β)) :
    alookup k (m1 ++ m2) = ((alookup k m1).orElse (fun _ => alookup k m2)) := by
  induction m1 with
  | nil => simp [alookup]
  | cons p t ih =>
    by_cases h : p.1 = k <;> simp [alookup, h, ih]

theorem updateAppend_cons (k : String) (p : String × List Nat)
    (t : DataProcessor.TrackMap) (i : Nat) :
    DataProcessor.updateAppend (p :: t) k i =
      (if p.1 = k then (p.1, p.2 ++ [i]) else p) :: DataProcessor.updateAppend t k i := rfl

theorem alookup_updateAppend_self (k : String) (m : DataProcessor.TrackMap) (i : Nat) :
    alookup k (DataProcessor.updateAppend m k i) = (alookup k m).map (fun l => l ++ [i]) := by
  induction m with
  | nil => rfl
  | cons p t ih =>
    rw [updateAppend_cons]
    by_cases h : p.1 = k
    · rw [if_pos h]
      show (if p.1 = k then some (p.2 ++ [i]) else alookup k (DataProcessor.updateAppend t k i)) =
        (if p.1 = k then some p.2 else alookup k t).map (fun l => l ++ [i])
      rw [if_pos h, if_pos h]
      rfl
    · rw [if_neg h]
      show (if p.1 = k then some p.2 else alookup k (DataProcessor.updateAppend t k i)) =
        (if p.1 = k then some p.2 else alookup k t).map (fun l => l ++ [i])
      rw [if_neg h, if_neg h, ih]

theorem alookup_updateAppend_ne (k k' : String) (m : DataProcessor.TrackMap) (i : Nat)
    (h : k' ≠ k) :
    alookup k' (DataProcessor.updateAppend m k i) = alookup k' m := by
  induction m with
  | nil => rfl
  | cons p t ih =>
    rw [updateAppend_cons]
    by_cases hp : p.1 = k
    · rw [if_pos hp]
      have hne : ¬(p.1 = k') := fun hh => h (hh.symm.trans hp)
      show (if p.1 = k' then some (p.2 ++ [i]) else alookup k' (DataProcessor.updateAppend t k i)) = _
      rw [if_neg hne]
      show _ = (if p.1 = k' then some p.2 else alookup k' t)
      rw [if_neg hne, ih]
    · rw [if_neg hp]
      by_cases hp' : p.1 = k'
      · show (if p.1 = k' then some p.2 else _) = (if p.1 = k' then some p.2 else _)
        rw [if_pos hp', if_pos hp']
      · show (if p.1 = k' then some p.2 else alookup k' (DataProcessor.updateAppend t k i)) =
          (if p.1 = k' then some p.2 else alookup k' t)
        rw [if_neg hp', if_neg hp', ih]

theorem mapIdxFrom_length {β : Type} (f : Nat → Row → β) (n : Nat) (l : List Row) :
    (mapIdxFrom f n l).length = l.length := by
  induction l generalizing n with
  | nil => rfl
  | cons r rs ih => simp [mapIdxFrom, ih]

theorem mapIdxFrom_getElem? {β : Type} (f : Nat → Row → β) (n : Nat) (l : List Row) (j : Nat) :
    (mapIdxFrom f n l)[j]? = (l[j]?).map (f (n + j)) := by
  induction l generalizing n j with
  | nil => simp [mapIdxFrom]
  | cons r rs ih =>
    cases j with
    | zero => simp [mapIdxFrom]
    | succ j =>
      rw [show mapIdxFrom f n (r :: rs) = f n r :: mapIdxFrom f (n + 1) rs from rfl,
        List.getElem?_cons_succ, List.getElem?_cons_succ, ih (n + 1) j]
      have harith : n + 1 + j = n + (j + 1) := by omega
      rw [harith]

theorem mem_mapIdxFrom {β : Type} {b : β} {f : Nat → Row → β} :
    ∀ {n : Nat} {l : List Row}, b ∈ mapIdxFrom f n l → ∃ i r, b = f i r := by
  intro n l
  induction l generalizing n with
  | nil => intro h; simp [mapIdxFrom] at h
  | cons r rs ih =>
    intro h
    rcases (List.mem_cons).mp h with h1 | h2
    · exact ⟨n, r, h1⟩
    · exact ih h2

theorem isEmptyAppend {α : Type} (a b : List α) :
    (a ++ b).isEmpty = (a.isEmpty && b.isEmpty) := by
  cases a <;> simp [List.isEmpty]

theorem foldl_rowAccum {α : Type} (f : α → List String) (l : List α) (e : List String) (b : Bool) :
    l.foldl (fun st x => ParallelValidator.rowAccum st (f x)) (e, b) =
      (e ++ (l.map f).flatten, b && ((l.map f).flatten).isEmpty) := by
  induction l generalizing e b with
  | nil => simp
  | cons x xs ih =>
    rw [List.foldl_cons,
      show ParallelValidator.rowAccum (e, b) (f x) = (e ++ f x, b && (f x).isEmpty) from rfl,
      ih]
    simp [isEmptyAppend, List.append_assoc, Bool.and_assoc]

/-- Decomposition of the parallel row validator: its error list is the
concatenation of the per-entry contributions and the code-prefixed
cross-field errors, and its flag is the emptiness of that list's parts. -/
theorem validate_single_row_spec (today : PyDate) (row_data : Row) (row_index : Nat)
    (required_columns : List String) (regName : Option String) :
    ParallelValidator.validate_single_row today row_data row_index required_columns regName =
      { row := row_index + 1,
        code := Row.getD row_data "code" "N/A",
        valid :=
          ((row_data.map (ParallelValidator.fieldEntryErrors today regName
              (required_columns.map pyLower) row_data (Row.getD row_data "code" "N/A"))).flatten).isEmpty &&
          (((ParallelValidator.validateCrossFields regName row_data).map
              (fun e => Row.getD row_data "code" "N/A" ++ " " ++ e)).isEmpty),
        errors :=
          (row_data.map (ParallelValidator.fieldEntryErrors today regName
              (required_columns.map pyLower) row_data (Row.getD row_data "code" "N/A"))).flatten ++
          (ParallelValidator.validateCrossFields regName row_data).map
              (fun e => Row.getD row_data "code" "N/A" ++ " " ++ e) } := by
  unfold ParallelValidator.validate_single_row
  dsimp only
  rw [foldl_rowAccum]
  simp [ParallelValidator.rowAccum, isEmptyAppend]

/-- Decomposition of the sequential per-row validator: duplicate errors
first, then per-entry contributions, then cross-field errors. -/
theorem validateRowApp_spec (today : PyDate) (regName : Option String)
    (reqLower : List String) (st : App.DupState) (row : Row) (idx : Nat) :
    App.validateRowApp today regName reqLower st row idx =
      { row := idx + 1,
        code := Row.getD row "code" "N/A",
        valid :=
          (App.dupErrors st row idx (Row.getD row "code" "N/A")).isEmpty &&
          (((row.map (App.appFieldEntryErrors today regName reqLower row
              (Row.getD row "code" "N/A"))).flatten).isEmpty &&
           (((ParallelValidator.validateCrossFields regName row).map
              (fun e => Row.getD row "code" "N/A" ++ " " ++ e)).isEmpty)),
        errors :=
          App.dupErrors st row idx (Row.getD row "code" "N/A") ++
          ((row.map (App.appFieldEntryErrors today regName reqLower row
              (Row.getD row "code" "N/A"))).flatten ++
           (ParallelValidator.validateCrossFields regName row).map
              (fun e => Row.getD row "code" "N/A" ++ " " ++ e)) } := by
  unfold App.validateRowApp
  dsimp only
  rw [show ParallelValidator.rowAccum ([], true)
      (App.dupErrors st row idx (Row.getD row "code" "N/A")) =
      (App.dupErrors st row idx (Row.getD row "code" "N/A"),
        (App.dupErrors st row idx (Row.getD row "code" "N/A")).isEmpty) from by
    simp [ParallelValidator.rowAccum]]
  rw [foldl_rowAccum]
  simp [ParallelValidator.rowAccum, isEmptyAppend, Bool.and_assoc, List.append_assoc]

/-! Claim C8: calendar-accurate birthdate age. -/

/-- Claim C8: the birthdate validator computes age as the calendar-accurate
year difference: born `15/06/2006`, evaluated on 2024-06-14 the age is 17
and the underage error is produced (default limit 18); evaluated on
2024-06-15 or any later date, the age is at least 18 and no error is
produced. -/
theorem c8_birthdate_calendar_age :
    (ValidatorsCommon.is_invalid_birthdate ⟨2024, 6, 14⟩ "15/06/2006" 18 =
      some "Account holder is underage (age: 17)") ∧
    (∀ d : PyDate, PyDate.leb ⟨2024, 6, 15⟩ d = true →
      ValidatorsCommon.is_invalid_birthdate d "15/06/2006" 18 = none) := by
  refine ⟨by decide, ?_⟩
  intro d hle
  obtain ⟨y, m, dd⟩ := d
  simp only [PyDate.leb, PyDate.ltb, Bool.not_eq_true', decide_eq_false_iff_not] at hle
  have hparse : ((parseDMY (pyStrip "15/06/2006")).orElse
      (fun _ => parseMDY (pyStrip "15/06/2006"))) = some ⟨2006, 6, 15⟩ := by decide
  have hfut : PyDate.ltb ⟨y, m, dd⟩ ⟨2006, 6, 15⟩ = false := by
    simp only [PyDate.ltb, decide_eq_false_iff_not]
    omega
  have hage : ¬(relativedeltaYears ⟨y, m, dd⟩ ⟨2006, 6, 15⟩ < 18) := by
    unfold relativedeltaYears
    dsimp only
    split_ifs with hb
    · have hy : 2025 ≤ y := by omega
      push_cast
      omega
    · have hy : 2024 ≤ y := by omega
      push_cast
      omega
  simp only [ValidatorsCommon.is_invalid_birthdate, hparse, hfut, hage]
  simp

/-- Witness for C8 at the boundary date 2024-06-15 itself. -/
theorem c8_birthdate_calendar_age_witness :
    PyDate.leb ⟨2024, 6, 15⟩ ⟨2024, 6, 15⟩ = true ∧
    ValidatorsCommon.is_invalid_birthdate ⟨2024, 6, 15⟩ "15/06/2006" 18 = none :=
  ⟨by decide, c8_birthdate_calendar_age.2 ⟨2024, 6, 15⟩ (by decide)⟩

/-! Claim C9: the phone validator used during row validation. -/

/-- Counterexample to claim C9: the phone validator actually used during
row validation (`validators_common.validate_phone_number`) rejects the
empty value, contradicting "returns no error on empty input", and accepts
`+12 345 67890`, which contains whitespace. -/
theorem c9_counterexample :
    ValidatorsCommon.validate_phone_number "" = some "Phone number is empty" ∧
    ValidatorsCommon.validate_phone_number "+12 345 67890" = none := by decide

/-- Claim C9 as amended: the phone validator used during row validation is
`validators_common.validate_phone_number`: it rejects empty input with
"Phone number is empty", and a non-empty value errors exactly when its
trimmed form fails `^\+?\d[\d\s\-\(\)]{8,20}$` (whitespace, hyphens and
parentheses are allowed).  The digits-and-plus-only behavior the claim
describes belongs to `validators.validate_phone_number`, which accepts
empty input and rejects exactly the values whose trimmed form contains a
character outside the digits and `+`; that module is not imported by the
row-validation path. -/
theorem c9_phone_validators :
    (ValidatorsCommon.validate_phone_number "" = some "Phone number is empty") ∧
    (∀ p : String, p ≠ "" →
      (ValidatorsCommon.validate_phone_number p = none ↔
        matchPhonePattern (pyStrip p) = true)) ∧
    (Validators.validate_phone_number "" = none) ∧
    (∀ p : String, p ≠ "" →
      (Validators.validate_phone_number p = none ↔
        (pyStrip p).data.all (fun c => c.isDigit || c = '+') = true)) := by
  refine ⟨by decide, ?_, by decide, ?_⟩
  · intro p hp
    by_cases hm : matchPhonePattern (pyStrip p) = true <;>
      simp [ValidatorsCommon.validate_phone_number, hp, hm]
  · intro p hp
    by_cases hall : (pyStrip p).data.all (fun c => c.isDigit || c = '+') = true
    · have hsp : ¬(' ' ∈ (pyStrip p).data) := by
        intro hmem
        have := List.all_eq_true.mp hall ' ' hmem
        simp at this
      simp [Validators.validate_phone_number, hp, hsp, hall]
    · by_cases hsp : ' ' ∈ (pyStrip p).data <;>
        simp [Validators.validate_phone_number, hp, hsp, hall]

/-- Witness for C9's amended theorem on a concrete digits-only value. -/
theorem c9_phone_validators_witness :
    ("123456789" : String) ≠ "" ∧
    (ValidatorsCommon.validate_phone_number "123456789" = none ↔
      matchPhonePattern (pyStrip "123456789") = true) ∧
    (Validators.validate_phone_number "123456789" = none ↔
      (pyStrip "123456789").data.all (fun c => c.isDigit || c = '+') = true) :=
  ⟨by decide, c9_phone_validators.2.1 "123456789" (by decide),
    c9_phone_validators.2.2.2 "123456789" (by decide)⟩

/-! Claim C10: Peru document-presence check skipped without citizenship. -/

/-- Claim C10: `validate_peru_documents` returns no error whenever the
row's citizenship value is absent or empty, even with every document
field empty, and an error can only be returned for a row whose
citizenship is non-empty and does not normalize to `ES`. -/
theorem c10_peru_documents_skip :
    (∀ row : Row, Row.get row "citizenship" = "" →
      ValidatorsPeru.validate_peru_documents row = none) ∧
    (∀ (row : Row) (e : String), ValidatorsPeru.validate_peru_documents row = some e →
      Row.get row "citizenship" ≠ "" ∧
      pyUpper (pyStrip (Row.get row "citizenship")) ≠ "ES") ∧
    (ValidatorsPeru.validate_peru_documents
      [("citizenship", ""), ("idcardno", ""), ("passportid", ""),
        ("DRIVERLICENSENO", ""), ("personalid", "")] = none) ∧
    (ValidatorsPeru.validate_peru_documents [("citizenship", "PE")] =
      some "Non-residents must provide at least one document: ID card, passport, driver's license, or personal ID") := by
  refine ⟨?_, ?_, by decide, by decide⟩
  · intro row h
    simp [ValidatorsPeru.validate_peru_documents, h]
  · intro row e h
    by_cases h1 : Row.get row "citizenship" = ""
    · simp [ValidatorsPeru.validate_peru_documents, h1] at h
    · by_cases h2 : pyUpper (pyStrip (Row.get row "citizenship")) = "ES"
      · simp [ValidatorsPeru.validate_peru_documents, h1, h2] at h
      · exact ⟨h1, h2⟩

/-- Witness for C10 on the empty row. -/
theorem c10_peru_documents_skip_witness :
    Row.get ([] : Row) "citizenship" = "" ∧
    ValidatorsPeru.validate_peru_documents ([] : Row) = none :=
  ⟨rfl, c10_peru_documents_skip.1 [] rfl⟩

/-! Claim C2: cross-chunk duplicate detection in the parallel path. -/

/-- Counterexample to claim C2: with chunk size 1, the same email in two
different chunks is counted once in the merged duplicate counts, but the
later row's ValidationResult has an empty error list: the chunked path
never adds the "(also in row 1)" duplicate error to any row result. -/
theorem c2_counterexample :
    (DataProcessor.validate_dataframe_parallel ⟨2025, 1, 1⟩ none ["email"] 1
      [[("email", "x@y.com")], [("email", "x@y.com")]]).duplicate_counts.emails = 1 ∧
    (DataProcessor.validate_dataframe_parallel ⟨2025, 1, 1⟩ none ["email"] 1
      [[("email", "x@y.com")], [("email", "x@y.com")]]).results[1]? =
      some { row := 2, code := "N/A", valid := true, errors := [] } := by decide

/-! Claim C6: duplicate-normalization asymmetry in the two paths. -/

/-- Counterexample to claim C6: in the chunked path the personalid values
`AB12C` and `ab12c` are lowercased and merged into one duplicate group
(count 1, both indices under the lowercased value), so personalid
duplicate matching is not case-sensitive in that path. -/
theorem c6_counterexample :
    (DataProcessor.validate_dataframe_parallel ⟨2025, 1, 1⟩ none [] 10
      [[("personalid", "AB12C")], [("personalid", "ab12c")]]).duplicate_counts.personalids = 1 ∧
    alookup "ab12c"
      (DataProcessor.validate_dataframe_parallel ⟨2025, 1, 1⟩ none [] 10
        [[("personalid", "AB12C")], [("personalid", "ab12c")]]).global_duplicates.personalids =
      some [0, 1] := by decide

/-- Claim C6 as amended: the sequential path normalizes email/username by
trimming and lowercasing but personalid/idcardno by trimming only
(case-sensitive), while the chunked path trims and lowercases all four
tracked fields.  Demonstrated behaviorally: the sequential route does not
group case-different personalids but does group case-preserved ones and
case-different emails; the chunked path groups case-different values of
both fields. -/
theorem c6_normalization_asymmetry :
    (App.validateRoute ⟨2025, 1, 1⟩ none [] [[("personalid", "AB12C")], [("personalid", "ab12c")]] =
      [{ row := 1, code := "N/A", valid := true, errors := [] },
        { row := 2, code := "N/A", valid := true, errors := [] }]) ∧
    (App.validateRoute ⟨2025, 1, 1⟩ none [] [[("personalid", "AB12C")], [("personalid", "AB12C")]] =
      [{ row := 1, code := "N/A", valid := true, errors := [] },
        { row := 2, code := "N/A", valid := false,
          errors := ["N/A Duplicate personal ID: AB12C (also in row 1)"] }]) ∧
    (App.validateRoute ⟨2025, 1, 1⟩ none [] [[("email", "A@B.cOm")], [("email", "a@b.com")]] =
      [{ row := 1, code := "N/A", valid := true, errors := [] },
        { row := 2, code := "N/A", valid := false,
          errors := ["N/A Duplicate email: a@b.com (also in row 1)"] }]) ∧
    ((DataProcessor.validate_dataframe_parallel ⟨2025, 1, 1⟩ none [] 1
      [[("personalid", "AB12C")], [("personalid", "ab12c")]]).duplicate_counts.personalids = 1) ∧
    ((DataProcessor.validate_dataframe_parallel ⟨2025, 1, 1⟩ none [] 1
      [[("email", "A@B.cOm")], [("email", "a@b.com")]]).duplicate_counts.emails = 1) := by
  decide

/-! Claim C4: Peru conditional personalid. -/

/-- Claim C4: under the Peru regulation, the personalid entry of a row
yields the mandatory error exactly when citizenship normalizes to `ES`
and the value trims to empty; with any other citizenship an empty
personalid yields no error at all; and with citizenship `ES` the values
`12345678Z` (DNI) and `X1234567L` (NIE) pass (letter case-insensitively,
e.g. `12345678z`), while `ABC123` is rejected with the invalid-format
error. -/
theorem c4_peru_personalid :
    (∀ (today : PyDate) (reqLower : List String) (row : Row) (code field value : String),
      pyLower field ∈ reqLower →
      pyLower field = "personalid" →
      pyUpper (pyStrip (Row.get row "citizenship")) = "ES" →
      pyStrip value = "" →
      ParallelValidator.fieldEntryErrors today (some "Peru") reqLower row code (field, value) =
        [code ++ " " ++ field ++ " is required for Spanish residents"]) ∧
    (∀ (today : PyDate) (reqLower : List String) (row : Row) (code field value : String),
      ¬(pyUpper (pyStrip (Row.get row "citizenship")) = "ES") →
      pyLower field = "personalid" →
      pyStrip value = "" →
      ParallelValidator.fieldEntryErrors today (some "Peru") reqLower row code (field, value) = []) ∧
    (ParallelValidator.fieldEntryErrors ⟨2025, 1, 1⟩ (some "Peru")
      (App.peruRequiredFields.map pyLower)
      [("citizenship", "ES"), ("personalid", "12345678Z")] "N/A"
      ("personalid", "12345678Z") = []) ∧
    (ParallelValidator.fieldEntryErrors ⟨2025, 1, 1⟩ (some "Peru")
      (App.peruRequiredFields.map pyLower)
      [("citizenship", "ES"), ("personalid", "X1234567L")] "N/A"
      ("personalid", "X1234567L") = []) ∧
    (ParallelValidator.fieldEntryErrors ⟨2025, 1, 1⟩ (some "Peru")
      (App.peruRequiredFields.map pyLower)
      [("citizenship", "ES"), ("personalid", "12345678z")] "N/A"
      ("personalid", "12345678z") = []) ∧
    (ParallelValidator.fieldEntryErrors ⟨2025, 1, 1⟩ (some "Peru")
      (App.peruRequiredFields.map pyLower)
      [("citizenship", "ES"), ("personalid", "ABC123")] "N/A"
      ("personalid", "ABC123") =
      ["N/A personalid: personalid: Invalid Spanish ID format. Must be DNI (8 digits + letter) or NIE (X/Y/Z + 7 digits + letter): 'ABC123'"]) := by
  refine ⟨?_, ?_, by decide, by decide, by decide, by decide⟩
  · intro today reqLower row code field value hreq hlow hES hempty
    rw [hlow] at hreq
    simp [ParallelValidator.fieldEntryErrors, hreq, hlow, hES, hempty]
  · intro today reqLower row code field value hES hlow hempty
    by_cases hreq : pyLower field ∈ reqLower
    · rw [hlow] at hreq
      simp [ParallelValidator.fieldEntryErrors, hreq, hlow, hES, hempty]
    · simp [ParallelValidator.fieldEntryErrors, hreq]

/-- Witness for C4's universally quantified parts at concrete rows. -/
theorem c4_peru_personalid_witness :
    (pyLower "personalid" ∈ App.peruRequiredFields.map pyLower ∧
      pyUpper (pyStrip (Row.get [("citizenship", "ES")] "citizenship")) = "ES" ∧
      ParallelValidator.fieldEntryErrors ⟨2025, 1, 1⟩ (some "Peru")
        (App.peruRequiredFields.map pyLower) [("citizenship", "ES")] "N/A"
        ("personalid", "") = ["N/A personalid is required for Spanish residents"]) ∧
    (¬(pyUpper (pyStrip (Row.get [("citizenship", "PE")] "citizenship")) = "ES") ∧
      ParallelValidator.fieldEntryErrors ⟨2025, 1, 1⟩ (some "Peru")
        (App.peruRequiredFields.map pyLower) [("citizenship", "PE")] "N/A"
        ("personalid", "") = []) :=
  ⟨⟨by decide, by decide,
    c4_peru_personalid.1 ⟨2025, 1, 1⟩ (App.peruRequiredFields.map pyLower)
      [("citizenship", "ES")] "N/A" "personalid" "" (by decide) (by decide) (by decide) (by decide)⟩,
   ⟨by decide,
    c4_peru_personalid.2.1 ⟨2025, 1, 1⟩ (App.peruRequiredFields.map pyLower)
      [("citizenship", "PE")] "N/A" "personalid" "" (by decide) (by decide) (by decide)⟩⟩

/-! Claim C7: country-specific zip validation. -/

/-- Counterexample to claim C7: a row with country code `AU` and the
three-character zip `123` validates with no errors, although the
country-specific Australian pattern (4 digits) would reject it: the row
validator never applies a country-specific zip pattern. -/
theorem c7_counterexample :
    ParallelValidator.validate_single_row ⟨2025, 1, 1⟩
      [("countrycode", "AU"), ("zip", "123")] 0 ["countrycode", "zip"] none =
      { row := 1, code := "N/A", valid := true, errors := [] } := by decide

/-- Claim C7 as amended: when no regulation zip override is registered,
the zip check of the row validator is the country-independent default
3-to-10-character alphanumeric/space/hyphen check: its outcome does not
depend on the row (in particular not on its country code), and it equals
`validators_common.validate_zip_code`, which accepts a non-empty value
exactly when its trimmed form matches `^[a-zA-Z0-9\s\-]{3,10}$`.  (The
country-specific postal patterns exist only in the country-aware
`validate_zip_code` of `validators.py`, which the row-validation path
never invokes.) -/
theorem c7_zip_ignores_country :
    (∀ (today : PyDate) (regName : Option String) (rowA rowB : Row) (value fl : String),
      ValidatorRegistry.getZipValidator regName = none →
      fl ∈ ["zipcode", "postalcode", "zip", "postcode"] →
      ParallelValidator.validateField today regName rowA fl value =
        ParallelValidator.validateField today regName rowB fl value) ∧
    (∀ (today : PyDate) (regName : Option String) (row : Row) (value fl : String),
      ValidatorRegistry.getZipValidator regName = none →
      fl ∈ ["zipcode", "postalcode", "zip", "postcode"] →
      ParallelValidator.validateField today regName row fl value =
        (ValidatorsCommon.validate_zip_code value).map (fun e => fl ++ ": " ++ e)) ∧
    (∀ value : String,
      ValidatorsCommon.validate_zip_code value = none ↔
        (¬(value = "") ∧ matchZipPattern (pyStrip value) = true)) := by
  refine ⟨?_, ?_, ?_⟩
  · intro today regName rowA rowB value fl hz hfl
    simp only [List.mem_cons, List.mem_singleton] at hfl
    rcases hfl with h | h | h | h | h <;> first
      | (subst h; simp [ParallelValidator.validateField, hz])
      | exact absurd h (by simp)
  · intro today regName row value fl hz hfl
    simp only [List.mem_cons, List.mem_singleton] at hfl
    rcases hfl with h | h | h | h | h <;> first
      | (subst h; simp [ParallelValidator.validateField, hz])
      | exact absurd h (by simp)
  · intro value
    by_cases hv : value = ""
    · simp [ValidatorsCommon.validate_zip_code, hv]
    · by_cases hm : matchZipPattern (pyStrip value) = true <;>
        simp [ValidatorsCommon.validate_zip_code, hv, hm]

/-- Witness for C7's amended theorem: the zip value `123` with an `AU`
country code in the row goes through the default check and passes. -/
theorem c7_zip_ignores_country_witness :
    ValidatorRegistry.getZipValidator none = none ∧
    ("zip" : String) ∈ ["zipcode", "postalcode", "zip", "postcode"] ∧
    ParallelValidator.validateField ⟨2025, 1, 1⟩ none [("countrycode", "AU")] "zip" "123" =
      (ValidatorsCommon.validate_zip_code "123").map (fun e => "zip" ++ ": " ++ e) :=
  ⟨rfl, by decide,
    c7_zip_ignores_country.2.1 ⟨2025, 1, 1⟩ none [("countrycode", "AU")] "123" "zip"
      rfl (by decide)⟩

/-! Claim C1: valid flag agrees with error-list emptiness. -/

theorem validateRowApp_valid_iff (today : PyDate) (regName : Option String)
    (reqLower : List String) (st : App.DupState) (row : Row) (idx : Nat) :
    ((App.validateRowApp today regName reqLower st row idx).valid = true ↔
      (App.validateRowApp today regName reqLower st row idx).errors = []) := by
  rw [validateRowApp_spec]
  simp [List.isEmpty_iff, List.append_eq_nil, and_assoc]

theorem mem_routeGoAux (today : PyDate) (regName : Option String) (reqLower : List String)
    (r : ValidationResult) :
    ∀ (fuel : Nat) (todo : List Row) (done : Nat) (st : App.DupState),
      r ∈ App.routeGoAux today regName reqLower fuel todo done st →
      ∃ st2 row i, r = App.validateRowApp today regName reqLower st2 row i := by
  intro fuel
  induction fuel with
  | zero =>
    intro todo done st h
    cases todo <;> simp [App.routeGoAux] at h
  | succ fuel ih =>
    intro todo done st h
    cases todo with
    | nil => simp [App.routeGoAux] at h
    | cons rr rest =>
      rw [App.routeGoAux] at h
      rcases List.mem_append.mp h with h1 | h2
      · rcases mem_mapIdxFrom h1 with ⟨i, row, hi⟩
        exact ⟨_, row, i, hi⟩
      · exact ih _ _ _ h2

/-- Claim C1: in both execution paths, a row's `valid` flag is true
exactly when its error list is empty: for every output of the parallel
row validator `validate_single_row`, and for every row result produced by
the per-row loop of the `/validate` route. -/
theorem c1_valid_iff_no_errors :
    (∀ (today : PyDate) (row_data : Row) (row_index : Nat)
      (required_columns : List String) (regName : Option String),
      ((ParallelValidator.validate_single_row today row_data row_index
          required_columns regName).valid = true ↔
        (ParallelValidator.validate_single_row today row_data row_index
          required_columns regName).errors = [])) ∧
    (∀ (today : PyDate) (regName : Option String) (required_columns : List String)
      (rows : List Row) (r : ValidationResult),
      r ∈ App.validateRoute today regName required_columns rows →
      (r.valid = true ↔ r.errors = [])) := by
  constructor
  · intro today row_data row_index required_columns regName
    rw [validate_single_row_spec]
    simp [List.isEmpty_iff, List.append_eq_nil]
  · intro today regName required_columns rows r hr
    rcases mem_routeGoAux today regName (required_columns.map pyLower) r _ _ _ _ hr with
      ⟨st2, row, i, hi⟩
    rw [hi]
    exact validateRowApp_valid_iff today regName (required_columns.map pyLower) st2 row i

/-- Witness for C1's sequential part on a one-row dataset with a missing
required email. -/
theorem c1_valid_iff_no_errors_witness :
    (⟨1, "N/A", false, ["N/A email is required but missing"]⟩ : ValidationResult) ∈
      App.validateRoute ⟨2025, 1, 1⟩ none ["email"] [[("email", "")]] ∧
    ((⟨1, "N/A", false, ["N/A email is required but missing"]⟩ : ValidationResult).valid = true ↔
      (⟨1, "N/A", false, ["N/A email is required but missing"]⟩ : ValidationResult).errors = []) :=
  ⟨by decide,
    c1_valid_iff_no_errors.2 ⟨2025, 1, 1⟩ none ["email"] [[("email", "")]] _ (by decide)⟩

/-! Claim C5: required-but-missing short-circuit. -/

/-- Claim C5: when a required field's value trims to empty (outside the
Peru personalid exception), that entry contributes exactly the single
error `"<code> <field> is required but missing"` — the field validator is
not consulted — and the row's error list is that singleton surrounded by
the contributions of the other entries and the cross-field checks. -/
theorem c5_required_missing_short_circuit :
    ∀ (today : PyDate) (regName : Option String) (required_columns : List String)
      (l1 l2 : List (String × String)) (field value : String) (row_index : Nat),
      pyLower field ∈ required_columns.map pyLower →
      pyStrip value = "" →
      ¬(pyLower field = "personalid" ∧ regName = some "Peru") →
      (ParallelValidator.fieldEntryErrors today regName (required_columns.map pyLower)
          (l1 ++ (field, value) :: l2)
          (Row.getD (l1 ++ (field, value) :: l2) "code" "N/A") (field, value) =
        [Row.getD (l1 ++ (field, value) :: l2) "code" "N/A" ++ " " ++ field ++
          " is required but missing"]) ∧
      ((ParallelValidator.validate_single_row today (l1 ++ (field, value) :: l2) row_index
          required_columns regName).errors =
        (l1.map (ParallelValidator.fieldEntryErrors today regName (required_columns.map pyLower)
          (l1 ++ (field, value) :: l2)
          (Row.getD (l1 ++ (field, value) :: l2) "code" "N/A"))).flatten ++
        ([Row.getD (l1 ++ (field, value) :: l2) "code" "N/A" ++ " " ++ field ++
          " is required but missing"] ++
        ((l2.map (ParallelValidator.fieldEntryErrors today regName (required_columns.map pyLower)
          (l1 ++ (field, value) :: l2)
          (Row.getD (l1 ++ (field, value) :: l2) "code" "N/A"))).flatten ++
        (ParallelValidator.validateCrossFields regName (l1 ++ (field, value) :: l2)).map
          (fun e => Row.getD (l1 ++ (field, value) :: l2) "code" "N/A" ++ " " ++ e)))) := by
  intro today regName required_columns l1 l2 field value row_index hreq hempty hnp
  have hentry : ParallelValidator.fieldEntryErrors today regName (required_columns.map pyLower)
      (l1 ++ (field, value) :: l2)
      (Row.getD (l1 ++ (field, value) :: l2) "code" "N/A") (field, value) =
      [Row.getD (l1 ++ (field, value) :: l2) "code" "N/A" ++ " " ++ field ++
        " is required but missing"] := by
    simp [ParallelValidator.fieldEntryErrors, hreq, hempty, hnp]
  refine ⟨hentry, ?_⟩
  rw [validate_single_row_spec]
  simp only [List.map_append, List.map_cons, List.flatten_append, List.flatten_cons, hentry]
  simp [List.append_assoc]

/-- Witness for C5 on a one-entry row with an empty required email. -/
theorem c5_required_missing_short_circuit_witness :
    pyLower "email" ∈ (["email"].map pyLower) ∧
    pyStrip "" = "" ∧
    (ParallelValidator.validate_single_row ⟨2025, 1, 1⟩ [("email", "")] 0 ["email"] none).errors =
      ["N/A email is required but missing"] := by
  refine ⟨by decide, by decide, ?_⟩
  have h2 := (c5_required_missing_short_circuit ⟨2025, 1, 1⟩ none ["email"] [] [] "email" "" 0
    (by decide) (by decide) (by decide)).2
  simp only [List.nil_append] at h2
  rw [h2]
  decide

/-! Lemmas for claim C3: per-field projections of the sequential
tracking state, and occurrence lists. -/

theorem readField_emptyDupState (fd : App.FieldDesc) :
    App.readField App.emptyDupState fd = App.emptyTrack := by
  unfold App.readField
  split_ifs <;> rfl

theorem mem_trackedFields {fd : App.FieldDesc} (hfd : fd ∈ App.trackedFields) :
    fd = App.fdEmail ∨ fd = App.fdUsername ∨ fd = App.fdPersonalid ∨ fd = App.fdIdcardno := by
  simpa [App.trackedFields] using hfd

theorem readField_trackRow (fd : App.FieldDesc) (hfd : fd ∈ App.trackedFields)
    (st : App.DupState) (row : Row) (idx : Nat) :
    App.readField (App.trackRow st row idx) fd =
      App.trackFieldRow (App.readField st fd) fd row idx := by
  rcases mem_trackedFields hfd with h | h | h | h <;> (subst h; rfl)

theorem readField_trackRowsFrom (fd : App.FieldDesc) (hfd : fd ∈ App.trackedFields) :
    ∀ (l : List Row) (st : App.DupState) (start : Nat),
      App.readField (App.trackRowsFrom st start l) fd =
        App.trackFieldRows fd (App.readField st fd) start l := by
  intro l
  induction l with
  | nil => intro st start; rfl
  | cons r rs ih =>
    intro st start
    show App.readField (App.trackRowsFrom (App.trackRow st r start) (start + 1) rs) fd = _
    rw [ih, readField_trackRow fd hfd]
    rfl

theorem trackFieldRows_append (fd : App.FieldDesc) :
    ∀ (a b : List Row) (ts : App.TrackState) (s : Nat),
      App.trackFieldRows fd ts s (a ++ b) =
        App.trackFieldRows fd (App.trackFieldRows fd ts s a) (s + a.length) b := by
  intro a
  induction a with
  | nil => intro b ts s; simp [App.trackFieldRows]
  | cons r rs ih =>
    intro b ts s
    show App.trackFieldRows fd (App.trackFieldRow ts fd r s) (s + 1) (rs ++ b) = _
    rw [ih]
    have h : s + 1 + rs.length = s + (r :: rs).length := by
      simp [List.length_cons]
      omega
    rw [h]
    rfl

theorem trackRowsFrom_append :
    ∀ (a b : List Row) (st : App.DupState) (s : Nat),
      App.trackRowsFrom st s (a ++ b) =
        App.trackRowsFrom (App.trackRowsFrom st s a) (s + a.length) b := by
  intro a
  induction a with
  | nil => intro b st s; simp [App.trackRowsFrom]
  | cons r rs ih =>
    intro b st s
    show App.trackRowsFrom (App.trackRow st r s) (s + 1) (rs ++ b) = _
    rw [ih]
    have h : s + 1 + rs.length = s + (r :: rs).length := by
      simp [List.length_cons]
      omega
    rw [h]
    rfl

theorem occList_succ (fd : App.FieldDesc) (rows : List Row) (v : String) (n : Nat) :
    App.occList fd rows (n + 1) v =
      App.occList fd rows n v ++
        (match rows[n]? with
          | some r => if App.occP fd v r then [n] else []
          | none => []) := by
  unfold App.occList
  rw [List.range_succ, List.filter_append]
  congr 1
  cases hrow : rows[n]? with
  | none => simp [hrow]
  | some r => by_cases ho : App.occP fd v r = true <;> simp [hrow, ho]

theorem mem_occList {fd : App.FieldDesc} {rows : List Row} {v : String} {n i : Nat} :
    i ∈ App.occList fd rows n v ↔
      i < n ∧ ∃ r, rows[i]? = some r ∧ App.occP fd v r = true := by
  unfold App.occList
  rw [List.mem_filter, List.mem_range]
  constructor
  · rintro ⟨h1, h2⟩
    refine ⟨h1, ?_⟩
    cases hrow : rows[i]? with
    | none => rw [hrow] at h2; simp at h2
    | some r => rw [hrow] at h2; exact ⟨r, rfl, h2⟩
  · rintro ⟨h1, r, hrow, hocc⟩
    refine ⟨h1, ?_⟩
    rw [hrow]
    exact hocc

theorem occList_pairwise (fd : App.FieldDesc) (rows : List Row) (v : String) (n : Nat) :
    (App.occList fd rows n v).Pairwise (· < ·) := by
  unfold App.occList
  exact (List.pairwise_lt_range n).filter _

theorem occList_prefix (fd : App.FieldDesc) (rows : List Row) (v : String)
    {n m : Nat} (h : n ≤ m) :
    ∃ t, App.occList fd rows m v = App.occList fd rows n v ++ t := by
  induction m, h using Nat.le_induction with
  | base => exact ⟨[], by simp⟩
  | succ m hm ih =>
    rcases ih with ⟨t, ht⟩
    rw [occList_succ, ht]
    exact ⟨_, by rw [List.append_assoc]⟩

theorem head?_append_of_ne_nil {α : Type} {l t : List α} (h : l ≠ []) :
    (l ++ t).head? = l.head? := by
  cases l with
  | nil => exact absurd rfl h
  | cons a l' => rfl

theorem two_le_length_of_mem_ne {α : Type} {l : List α} {a b : α}
    (ha : a ∈ l) (hb : b ∈ l) (hne : a ≠ b) : 2 ≤ l.length := by
  cases l with
  | nil => simp at ha
  | cons x t =>
    cases t with
    | nil =>
      simp at ha hb
      exact absurd (ha.trans hb.symm) hne
    | cons y u => simp [List.length_cons]

theorem head?_le_of_pairwise {l : List Nat} {a i : Nat}
    (hp : l.Pairwise (· < ·)) (hh : l.head? = some a) (hi : i ∈ l) : a ≤ i := by
  cases l with
  | nil => simp at hh
  | cons x t =>
    have hax : a = x := by simpa using hh.symm
    subst hax
    rcases List.mem_cons.mp hi with h | h
    · omega
    · exact Nat.le_of_lt ((List.pairwise_cons.mp hp).1 i h)

theorem eq_singleton_of_head?_of_len_le {α : Type} {l : List α} {a : α}
    (hh : l.head? = some a) (hl : l.length ≤ 1) : l = [a] := by
  cases l with
  | nil => simp at hh
  | cons x t =>
    have hax : x = a := by simpa using hh
    subst hax
    cases t with
    | nil => rfl
    | cons y u => simp [List.length_cons] at hl

/-- Invariant of the sequential duplicate tracker: after the first `n`
rows, the first-seen-index dictionary holds the head of the occurrence
list of each value, and the duplicate dictionary holds the full
occurrence list exactly for values seen at least twice. -/
theorem trackField_invariant (fd : App.FieldDesc) (rows : List Row) :
    ∀ (n : Nat) (v : String),
      alookup v (App.trackFieldRows fd App.emptyTrack 0 (rows.take n)).indices =
        (App.occList fd rows n v).head? ∧
      alookup v (App.trackFieldRows fd App.emptyTrack 0 (rows.take n)).dups =
        (if 2 ≤ (App.occList fd rows n v).length then some (App.occList fd rows n v)
          else none) := by
  intro n
  induction n with
  | zero => intro v; exact ⟨rfl, rfl⟩
  | succ n ih =>
    intro v
    cases hrow : rows[n]? with
    | none =>
      have htake : rows.take (n + 1) = rows.take n := by
        rw [List.take_succ, hrow]
        simp
      have hocc : App.occList fd rows (n + 1) v = App.occList fd rows n v := by
        rw [occList_succ, hrow]
        simp
      rw [htake, hocc]
      exact ih v
    | some r =>
      have hn : n < rows.length := by
        by_contra hcon
        push_neg at hcon
        rw [List.getElem?_eq_none hcon] at hrow
        exact absurd hrow (by simp)
      have htake : rows.take (n + 1) = rows.take n ++ [r] := by
        rw [List.take_succ, hrow]
        rfl
      have hlen : (rows.take n).length = n := by
        rw [List.length_take]
        omega
      have hstep : App.trackFieldRows fd App.emptyTrack 0 (rows.take (n + 1)) =
          App.trackFieldRow (App.trackFieldRows fd App.emptyTrack 0 (rows.take n)) fd r n := by
        rw [htake, trackFieldRows_append]
        simp only [hlen, Nat.zero_add]
        rfl
      rw [hstep]
      by_cases htr : rowHasTruthy r fd.key = true
      case neg =>
        rw [Bool.not_eq_true] at htr
        have hoccP : App.occP fd v r = false := by
          unfold App.occP
          rw [htr]
          rfl
        have hocc : App.occList fd rows (n + 1) v = App.occList fd rows n v := by
          rw [occList_succ, hrow]
          simp [hoccP]
        have hid : App.trackFieldRow (App.trackFieldRows fd App.emptyTrack 0 (rows.take n)) fd r n =
            App.trackFieldRows fd App.emptyTrack 0 (rows.take n) := by
          unfold App.trackFieldRow
          rw [htr]
          rfl
        rw [hocc, hid]
        exact ih v
      case pos =>
        have hstep2 : App.trackFieldRow (App.trackFieldRows fd App.emptyTrack 0 (rows.take n)) fd r n =
            App.trackValue (App.trackFieldRows fd App.emptyTrack 0 (rows.take n))
              (fd.norm (Row.get r fd.key)) n := by
          unfold App.trackFieldRow
          rw [htr]
          rfl
        rw [hstep2]
        by_cases hv : fd.norm (Row.get r fd.key) = v
        case pos =>
          subst hv
          have hoccP : App.occP fd (fd.norm (Row.get r fd.key)) r = true := by
            unfold App.occP
            rw [htr]
            simp
          have hocc : App.occList fd rows (n + 1) (fd.norm (Row.get r fd.key)) =
              App.occList fd rows n (fd.norm (Row.get r fd.key)) ++ [n] := by
            rw [occList_succ, hrow]
            simp [hoccP]
          rw [hocc]
          unfold App.trackValue
          cases hind : alookup (fd.norm (Row.get r fd.key))
              (App.trackFieldRows fd App.emptyTrack 0 (rows.take n)).indices with
          | none =>
            have hh := (ih (fd.norm (Row.get r fd.key))).1
            rw [hind] at hh
            have hemp : App.occList fd rows n (fd.norm (Row.get r fd.key)) = [] :=
              List.head?_eq_none_iff.mp hh.symm
            rw [hemp]
            constructor
            · show alookup (fd.norm (Row.get r fd.key))
                ((App.trackFieldRows fd App.emptyTrack 0 (rows.take n)).indices ++
                  [(fd.norm (Row.get r fd.key), n)]) = _
              rw [alookup_append, hind]
              simp [alookup, Option.orElse]
            · show alookup (fd.norm (Row.get r fd.key))
                (App.trackFieldRows fd App.emptyTrack 0 (rows.take n)).dups = _
              have hd := (ih (fd.norm (Row.get r fd.key))).2
              rw [hemp] at hd
              simpa using hd
          | some first =>
            have hh := (ih (fd.norm (Row.get r fd.key))).1
            rw [hind] at hh
            have hhead : (App.occList fd rows n (fd.norm (Row.get r fd.key))).head? = some first :=
              hh.symm
            have hne : App.occList fd rows n (fd.norm (Row.get r fd.key)) ≠ [] := by
              intro hcon
              rw [hcon] at hhead
              simp at hhead
            cases hdup : alookup (fd.norm (Row.get r fd.key))
                (App.trackFieldRows fd App.emptyTrack 0 (rows.take n)).dups with
            | none =>
              have hd := (ih (fd.norm (Row.get r fd.key))).2
              rw [hdup] at hd
              have hlen1 : ¬ 2 ≤ (App.occList fd rows n (fd.norm (Row.get r fd.key))).length := by
                intro hcon
                rw [if_pos hcon] at hd
                simp at hd
              have hsing : App.occList fd rows n (fd.norm (Row.get r fd.key)) = [first] :=
                eq_singleton_of_head?_of_len_le hhead (by omega)
              rw [hsing]
              constructor
              · show alookup (fd.norm (Row.get r fd.key))
                  (App.trackFieldRows fd App.emptyTrack 0 (rows.take n)).indices = _
                rw [hind]
                rfl
              · show alookup (fd.norm (Row.get r fd.key))
                  (DataProcessor.updateAppend
                    (DataProcessor.insertNew
                      (App.trackFieldRows fd App.emptyTrack 0 (rows.take n)).dups
                      (fd.norm (Row.get r fd.key)) [first])
                    (fd.norm (Row.get r fd.key)) n) = _
                rw [alookup_updateAppend_self]
                unfold DataProcessor.insertNew
                rw [alookup_append, hdup]
                simp [alookup, Option.orElse]
            | some lst =>
              have hd := (ih (fd.norm (Row.get r fd.key))).2
              rw [hdup] at hd
              have hlen2 : 2 ≤ (App.occList fd rows n (fd.norm (Row.get r fd.key))).length := by
                by_contra hcon
                rw [if_neg hcon] at hd
                simp at hd
              have hlst : lst = App.occList fd rows n (fd.norm (Row.get r fd.key)) := by
                rw [if_pos hlen2] at hd
                simpa using hd
              constructor
              · show alookup (fd.norm (Row.get r fd.key))
                  (App.trackFieldRows fd App.emptyTrack 0 (rows.take n)).indices = _
                rw [hind, head?_append_of_ne_nil hne, hhead]
              · show alookup (fd.norm (Row.get r fd.key))
                  (DataProcessor.updateAppend
                    (App.trackFieldRows fd App.emptyTrack 0 (rows.take n)).dups
                    (fd.norm (Row.get r fd.key)) n) = _
                rw [alookup_updateAppend_self, hdup, hlst,
                  if_pos (by simp only [List.length_append, List.length_cons, List.length_nil]; omega)]
                rfl
        case neg =>
          have hoccP : App.occP fd v r = false := by
            unfold App.occP
            rw [htr]
            simp [hv]
          have hocc : App.occList fd rows (n + 1) v = App.occList fd rows n v := by
            rw [occList_succ, hrow]
            simp [hoccP]
          rw [hocc]
          unfold App.trackValue
          have hvw : v ≠ fd.norm (Row.get r fd.key) := fun h => hv h.symm
          cases hind : alookup (fd.norm (Row.get r fd.key))
              (App.trackFieldRows fd App.emptyTrack 0 (rows.take n)).indices with
          | none =>
            constructor
            · show alookup v
                ((App.trackFieldRows fd App.emptyTrack 0 (rows.take n)).indices ++
                  [(fd.norm (Row.get r fd.key), n)]) = _
              rw [alookup_append]
              have h2 : alookup v ([(fd.norm (Row.get r fd.key), n)] : List (String × Nat)) = none := by
                simp [alookup, hv]
              rw [h2]
              have h3 : ((alookup v (App.trackFieldRows fd App.emptyTrack 0 (rows.take n)).indices).orElse
                  (fun _ => (none : Option Nat))) =
                  alookup v (App.trackFieldRows fd App.emptyTrack 0 (rows.take n)).indices := by
                cases alookup v (App.trackFieldRows fd App.emptyTrack 0 (rows.take n)).indices <;> rfl
              rw [h3]
              exact (ih v).1
            · show alookup v (App.trackFieldRows fd App.emptyTrack 0 (rows.take n)).dups = _
              exact (ih v).2
          | some first =>
            cases hdup : alookup (fd.norm (Row.get r fd.key))
                (App.trackFieldRows fd App.emptyTrack 0 (rows.take n)).dups with
            | none =>
              constructor
              · exact (ih v).1
              · show alookup v
                  (DataProcessor.updateAppend
                    (DataProcessor.insertNew
                      (App.trackFieldRows fd App.emptyTrack 0 (rows.take n)).dups
                      (fd.norm (Row.get r fd.key)) [first])
                    (fd.norm (Row.get r fd.key)) n) = _
                rw [alookup_updateAppend_ne _ _ _ _ hvw]
                unfold DataProcessor.insertNew
                rw [alookup_append]
                have h2 : alookup v
                    ([(fd.norm (Row.get r fd.key), [first])] : DataProcessor.TrackMap) = none := by
                  simp [alookup, hv]
                rw [h2]
                have h3 : ((alookup v (App.trackFieldRows fd App.emptyTrack 0 (rows.take n)).dups).orElse
                    (fun _ => (none : Option (List Nat)))) =
                    alookup v (App.trackFieldRows fd App.emptyTrack 0 (rows.take n)).dups := by
                  cases alookup v (App.trackFieldRows fd App.emptyTrack 0 (rows.take n)).dups <;> rfl
                rw [h3]
                exact (ih v).2
            | some lst =>
              constructor
              · exact (ih v).1
              · show alookup v
                  (DataProcessor.updateAppend
                    (App.trackFieldRows fd App.emptyTrack 0 (rows.take n)).dups
                    (fd.norm (Row.get r fd.key)) n) = _
                rw [alookup_updateAppend_ne _ _ _ _ hvw]
                exact (ih v).2

theorem singleton_of_mem_len_le {α : Type} {l : List α} {a : α}
    (ha : a ∈ l) (hl : l.length ≤ 1) : l = [a] := by
  cases l with
  | nil => simp at ha
  | cons x t =>
    cases t with
    | nil => simp at ha; rw [ha]
    | cons y u => simp [List.length_cons] at hl

theorem readField_dupStateUpTo (fd : App.FieldDesc) (hfd : fd ∈ App.trackedFields)
    (rows : List Row) (N : Nat) :
    App.readField (App.dupStateUpTo rows N) fd =
      App.trackFieldRows fd App.emptyTrack 0 (rows.take N) := by
  unfold App.dupStateUpTo
  rw [readField_trackRowsFrom fd hfd, readField_emptyDupState]

/-- The duplicate check of one tracked field for one occurrence row,
against the tracking state of the first `N` rows: the first occurrence of
the value is never flagged; every other occurrence is flagged with a
back-reference to the first occurrence's 1-based row number. -/
theorem dupFieldErrors_spec (fd : App.FieldDesc) (hfd : fd ∈ App.trackedFields)
    (rows : List Row) (N : Nat) (v : String) (i : Nat) (row : Row) (code : String)
    (hiN : i < N) (hrow : rows[i]? = some row) (hocc : App.occP fd v row = true) :
    App.dupFieldErrors fd (App.readField (App.dupStateUpTo rows N) fd) row i code =
      (if (App.occList fd rows N v).head? = some i then []
        else [code ++ " Duplicate " ++ fd.label ++ ": " ++ v ++
          " (also in row " ++ toString ((App.occList fd rows N v).headD 0 + 1) ++ ")"]) := by
  have hocc' := hocc
  unfold App.occP at hocc'
  rcases (Bool.and_eq_true _ _).mp hocc' with ⟨htr, hnv⟩
  have hnv' : fd.norm (Row.get row fd.key) = v := of_decide_eq_true hnv
  have hmem : i ∈ App.occList fd rows N v := mem_occList.mpr ⟨hiN, row, hrow, hocc⟩
  have hts := trackField_invariant fd rows N v
  simp only [App.dupFieldErrors, htr, if_true, hnv']
  rw [readField_dupStateUpTo fd hfd, hts.2]
  by_cases hlen : 2 ≤ (App.occList fd rows N v).length
  · rw [if_pos hlen]
    by_cases hi : (App.occList fd rows N v).head? = some i
    · rw [if_pos hi]
      simp [List.headD_eq_head?, hi]
    · rw [if_neg hi]
      have hne : App.occList fd rows N v ≠ [] := List.ne_nil_of_mem hmem
      obtain ⟨h0, hh0⟩ : ∃ h0, (App.occList fd rows N v).head? = some h0 := by
        cases hcase : App.occList fd rows N v with
        | nil => exact absurd hcase hne
        | cons a t => exact ⟨a, rfl⟩
      have hne2 : h0 ≠ i := by
        intro hcon
        rw [hcon] at hh0
        exact hi hh0
      simp [List.headD_eq_head?, hh0, hne2]
  · rw [if_neg hlen] at hts ⊢
    have hsing : App.occList fd rows N v = [i] :=
      singleton_of_mem_len_le hmem (by omega)
    rw [hsing]
    simp

theorem routeGoAux_cons (today : PyDate) (regName : Option String) (reqLower : List String)
    (fuel : Nat) (r : Row) (rest : List Row) (done : Nat) (st : App.DupState) :
    App.routeGoAux today regName reqLower (fuel + 1) (r :: rest) done st =
      (mapIdxFrom (fun i row => App.validateRowApp today regName reqLower
        (App.trackRowsFrom st done ((r :: rest).take 5000)) row i) done ((r :: rest).take 5000)) ++
      App.routeGoAux today regName reqLower fuel ((r :: rest).drop 5000)
        (done + ((r :: rest).take 5000).length)
        (App.trackRowsFrom st done ((r :: rest).take 5000)) := rfl

theorem routeGoAux_length (today : PyDate) (regName : Option String) (reqLower : List String) :
    ∀ (fuel : Nat) (todo : List Row) (done : Nat) (st : App.DupState),
      todo.length ≤ fuel →
      (App.routeGoAux today regName reqLower fuel todo done st).length = todo.length := by
  intro fuel
  induction fuel with
  | zero =>
    intro todo done st h
    cases todo with
    | nil => rfl
    | cons r rest => simp at h
  | succ fuel ih =>
    intro todo done st h
    cases todo with
    | nil => rfl
    | cons r rest =>
      rw [routeGoAux_cons, List.length_append, mapIdxFrom_length, ih]
      · simp only [List.length_take, List.length_drop, List.length_cons]
        omega
      · simp only [List.length_drop, List.length_cons] at h ⊢
        omega

theorem routeGoAux_getElem (today : PyDate) (regName : Option String) (reqLower : List String)
    (rows : List Row) :
    ∀ (fuel done j : Nat),
      (rows.drop done).length ≤ fuel →
      j < (rows.drop done).length →
      ∃ N, done + j < N ∧ N ≤ rows.length ∧
        (App.routeGoAux today regName reqLower fuel (rows.drop done) done
          (App.dupStateUpTo rows done))[j]? =
        some (App.validateRowApp today regName reqLower (App.dupStateUpTo rows N)
          ((rows[done + j]?).getD []) (done + j)) := by
  intro fuel
  induction fuel with
  | zero =>
    intro done j h hj
    omega
  | succ fuel ih =>
    intro done j h hj
    cases hdrop : rows.drop done with
    | nil => rw [hdrop] at hj; simp at hj
    | cons r rest =>
      have hdone : done < rows.length := by
        by_contra hcon
        push_neg at hcon
        rw [List.drop_eq_nil_of_le hcon] at hdrop
        exact absurd hdrop (by simp)
      have htlen : (r :: rest).length = rows.length - done := by
        rw [← hdrop, List.length_drop]
      have hchunklen : ((r :: rest).take 5000).length = min 5000 (r :: rest).length := by
        rw [List.length_take]
      have hst2 : App.trackRowsFrom (App.dupStateUpTo rows done) done ((r :: rest).take 5000) =
          App.dupStateUpTo rows (done + ((r :: rest).take 5000).length) := by
        show _ = App.trackRowsFrom App.emptyDupState 0
          (rows.take (done + ((r :: rest).take 5000).length))
        rw [List.take_add, trackRowsFrom_append]
        have hlen : (rows.take done).length = done := by
          rw [List.length_take]
          omega
        rw [hlen, Nat.zero_add]
        have htake : (rows.drop done).take (((r :: rest).take 5000).length) =
            (r :: rest).take 5000 := by
          rw [hdrop, hchunklen, List.take_eq_take]
          omega
        rw [htake]
        rfl
      rw [hdrop] at h hj
      rw [routeGoAux_cons]
      by_cases hj5 : j < ((r :: rest).take 5000).length
      · refine ⟨done + ((r :: rest).take 5000).length, by omega, ?_, ?_⟩
        · rw [hchunklen]
          omega
        · rw [List.getElem?_append_left (by rw [mapIdxFrom_length]; exact hj5)]
          rw [mapIdxFrom_getElem?, hst2]
          have hcj : ((r :: rest).take 5000)[j]? = rows[done + j]? := by
            rw [List.getElem?_take_of_lt (by rw [hchunklen] at hj5; omega), ← hdrop,
              List.getElem?_drop]
          rw [hcj]
          have hlt : done + j < rows.length := by
            rw [hchunklen] at hj5
            omega
          rw [List.getElem?_eq_getElem hlt]
          rfl
      · push_neg at hj5
        have h5000 : 5000 < (r :: rest).length := by
          by_contra hcon
          push_neg at hcon
          rw [hchunklen] at hj5
          omega
        have hchunk5 : ((r :: rest).take 5000).length = 5000 := by
          rw [hchunklen]
          omega
        rw [List.getElem?_append_right (by rw [mapIdxFrom_length]; exact hj5)]
        rw [mapIdxFrom_length]
        have hdrop2 : (r :: rest).drop 5000 = rows.drop (done + ((r :: rest).take 5000).length) := by
        -- (rows.drop done).drop 5000 = rows.drop (5000 + done)
          rw [hchunk5, ← hdrop, List.drop_drop]
        rw [hdrop2, hst2]
        have hlen' : (rows.drop (done + ((r :: rest).take 5000).length)).length ≤ fuel := by
          rw [List.length_drop]
          rw [hchunk5]
          simp only [List.length_cons] at h htlen
          omega
        have hj' : j - ((r :: rest).take 5000).length <
            (rows.drop (done + ((r :: rest).take 5000).length)).length := by
          rw [List.length_drop, hchunk5]
          simp only [List.length_cons] at hj htlen
          omega
        obtain ⟨N, hN1, hN2, hEq⟩ := ih (done + ((r :: rest).take 5000).length)
          (j - ((r :: rest).take 5000).length) hlen' hj'
        refine ⟨N, by omega, hN2, ?_⟩
        rw [hEq]
        have harith : done + ((r :: rest).take 5000).length +
            (j - ((r :: rest).take 5000).length) = done + j := by
          omega
        rw [harith]

/-! Claim C3: duplicate groups in the `/validate` route. -/

/-- Claim C3: in the `/validate` route, for every tracked field `fd` and
every duplicate group (at least two rows sharing the same normalized value
`v` of `fd`), each occurrence row `i` is validated against the tracking
state of some prefix of the dataset covering its own chunk, its error list
starts with the duplicate-check errors against that state, and the
duplicate check for `fd` yields nothing when `i` is the group's first
occurrence and exactly the back-referencing
`Duplicate <label>: <value> (also in row <first+1>)` message otherwise —
so of the `k` rows of the group exactly the `k - 1` non-first ones receive
the error, which names the first occurrence (the least index of the
group). -/
theorem c3_duplicate_groups (today : PyDate) (regName : Option String)
    (required_columns : List String) (rows : List Row) (fd : App.FieldDesc)
    (v : String) (i : Nat) (row : Row)
    (hfd : fd ∈ App.trackedFields)
    (hdup : 2 ≤ (App.occList fd rows rows.length v).length)
    (hi : i ∈ App.occList fd rows rows.length v)
    (hrow : rows[i]? = some row) :
    ∃ N res rest, i < N ∧ N ≤ rows.length ∧
      (App.validateRoute today regName required_columns rows)[i]? = some res ∧
      res.errors = App.dupErrors (App.dupStateUpTo rows N) row i
        (Row.getD row "code" "N/A") ++ rest ∧
      App.dupFieldErrors fd (App.readField (App.dupStateUpTo rows N) fd) row i
          (Row.getD row "code" "N/A") =
        (if (App.occList fd rows rows.length v).head? = some i then []
          else [Row.getD row "code" "N/A" ++ " Duplicate " ++ fd.label ++ ": " ++ v ++
            " (also in row " ++
            toString ((App.occList fd rows rows.length v).headD 0 + 1) ++ ")"]) ∧
      ((App.occList fd rows rows.length v).head? ≠ some i →
        (Row.getD row "code" "N/A" ++ " Duplicate " ++ fd.label ++ ": " ++ v ++
          " (also in row " ++
          toString ((App.occList fd rows rows.length v).headD 0 + 1) ++ ")")
          ∈ res.errors) ∧
      (∀ j ∈ App.occList fd rows rows.length v,
        (App.occList fd rows rows.length v).headD 0 ≤ j) := by
  obtain ⟨hilen, r0, hr0, hocc⟩ := mem_occList.mp hi
  rw [hrow] at hr0
  have hr0' : row = r0 := by injection hr0
  subst hr0'
  obtain ⟨N, hN1, hN2, hEq⟩ := routeGoAux_getElem today regName
    (required_columns.map pyLower) rows rows.length 0 i
    (by rw [List.drop_zero]) (by rw [List.drop_zero]; exact hilen)
  rw [List.drop_zero] at hEq
  simp only [Nat.zero_add] at hEq hN1
  rw [hrow, Option.getD_some] at hEq
  have hzero : App.dupStateUpTo rows 0 = App.emptyDupState := rfl
  rw [hzero] at hEq
  have hiN : i < N := hN1
  have hspec := dupFieldErrors_spec fd hfd rows N v i row
    (Row.getD row "code" "N/A") hiN hrow hocc
  obtain ⟨t, ht⟩ := occList_prefix fd rows v hN2
  have hiInN : i ∈ App.occList fd rows N v := mem_occList.mpr ⟨hiN, row, hrow, hocc⟩
  have hNne : App.occList fd rows N v ≠ [] := List.ne_nil_of_mem hiInN
  have hheads : (App.occList fd rows rows.length v).head? =
      (App.occList fd rows N v).head? := by
    rw [ht]
    exact head?_append_of_ne_nil hNne
  have hheadD : (App.occList fd rows rows.length v).headD 0 =
      (App.occList fd rows N v).headD 0 := by
    rw [List.headD_eq_head?, List.headD_eq_head?, hheads]
  have hchar : App.dupFieldErrors fd (App.readField (App.dupStateUpTo rows N) fd) row i
      (Row.getD row "code" "N/A") =
      (if (App.occList fd rows rows.length v).head? = some i then []
        else [Row.getD row "code" "N/A" ++ " Duplicate " ++ fd.label ++ ": " ++ v ++
          " (also in row " ++
          toString ((App.occList fd rows rows.length v).headD 0 + 1) ++ ")"]) := by
    rw [hspec, hheads, hheadD]
  have herr := congrArg ValidationResult.errors
    (validateRowApp_spec today regName (required_columns.map pyLower)
      (App.dupStateUpTo rows N) row i)
  refine ⟨N,
    App.validateRowApp today regName (required_columns.map pyLower)
      (App.dupStateUpTo rows N) row i,
    ((row.map (App.appFieldEntryErrors today regName (required_columns.map pyLower) row
        (Row.getD row "code" "N/A"))).flatten ++
      (ParallelValidator.validateCrossFields regName row).map
        (fun e => Row.getD row "code" "N/A" ++ " " ++ e)),
    hiN, hN2, hEq, herr, hchar, ?_, ?_⟩
  · intro hne
    rw [herr]
    have hone : App.dupFieldErrors fd (App.readField (App.dupStateUpTo rows N) fd) row i
        (Row.getD row "code" "N/A") =
        [Row.getD row "code" "N/A" ++ " Duplicate " ++ fd.label ++ ": " ++ v ++
          " (also in row " ++
          toString ((App.occList fd rows rows.length v).headD 0 + 1) ++ ")"] := by
      rw [hchar, if_neg hne]
    refine List.mem_append_left _ ?_
    rcases mem_trackedFields hfd with h | h | h | h <;> subst h
    · have hre : App.readField (App.dupStateUpTo rows N) App.fdEmail =
          (App.dupStateUpTo rows N).emails := by
        simp [App.readField, App.fdEmail]
      rw [hre] at hone
      unfold App.dupErrors
      rw [hone]
      simp
    · have hre : App.readField (App.dupStateUpTo rows N) App.fdUsername =
          (App.dupStateUpTo rows N).usernames := by
        simp [App.readField, App.fdUsername]
      rw [hre] at hone
      unfold App.dupErrors
      rw [hone]
      simp
    · have hre : App.readField (App.dupStateUpTo rows N) App.fdPersonalid =
          (App.dupStateUpTo rows N).personalids := by
        simp [App.readField, App.fdPersonalid]
      rw [hre] at hone
      unfold App.dupErrors
      rw [hone]
      simp
    · have hre : App.readField (App.dupStateUpTo rows N) App.fdIdcardno =
          (App.dupStateUpTo rows N).idcardnos := by
        simp [App.readField, App.fdIdcardno]
      rw [hre] at hone
      unfold App.dupErrors
      rw [hone]
      simp
  · intro j hj
    have hgne : App.occList fd rows rows.length v ≠ [] := by
      intro hc
      rw [hc] at hdup
      simp at hdup
    have hh : (App.occList fd rows rows.length v).head? =
        some ((App.occList fd rows rows.length v).headD 0) := by
      cases hg : App.occList fd rows rows.length v with
      | nil => exact absurd hg hgne
      | cons a l => rfl
    exact head?_le_of_pairwise (occList_pairwise fd rows v rows.length) hh hj

/-- The smallest duplicate group: two identical emails; the C3 theorem
applied at the second (non-first) occurrence. -/
theorem c3_duplicate_groups_witness :
    ∃ N res rest, 1 < N ∧ N ≤ rows2dup.length ∧
      (App.validateRoute ⟨2024, 1, 1⟩ none [] rows2dup)[1]? = some res ∧
      res.errors = App.dupErrors (App.dupStateUpTo rows2dup N) [("email", "a@b.com")] 1
        (Row.getD [("email", "a@b.com")] "code" "N/A") ++ rest ∧
      App.dupFieldErrors App.fdEmail (App.readField (App.dupStateUpTo rows2dup N) App.fdEmail)
          [("email", "a@b.com")] 1 (Row.getD [("email", "a@b.com")] "code" "N/A") =
        (if (App.occList App.fdEmail rows2dup rows2dup.length "a@b.com").head? = some 1 then []
          else [Row.getD [("email", "a@b.com")] "code" "N/A" ++ " Duplicate " ++
            App.fdEmail.label ++ ": " ++ "a@b.com" ++ " (also in row " ++
            toString ((App.occList App.fdEmail rows2dup rows2dup.length "a@b.com").headD 0 + 1)
              ++ ")"]) ∧
      ((App.occList App.fdEmail rows2dup rows2dup.length "a@b.com").head? ≠ some 1 →
        (Row.getD [("email", "a@b.com")] "code" "N/A" ++ " Duplicate " ++
          App.fdEmail.label ++ ": " ++ "a@b.com" ++ " (also in row " ++
          toString ((App.occList App.fdEmail rows2dup rows2dup.length "a@b.com").headD 0 + 1)
            ++ ")") ∈ res.errors) ∧
      (∀ j ∈ App.occList App.fdEmail rows2dup rows2dup.length "a@b.com",
        (App.occList App.fdEmail rows2dup rows2dup.length "a@b.com").headD 0 ≤ j) :=
  c3_duplicate_groups ⟨2024, 1, 1⟩ none [] rows2dup App.fdEmail "a@b.com" 1
    [("email", "a@b.com")] (by decide) (by decide) (by decide) (by decide)

/-! Helper lemmas for the chunked path's duplicate tracking and merging. -/

theorem alookup_none_iff {β : Type} (k : String) (m : List (String × β)) :
    alookup k m = none ↔ ∀ p ∈ m, p.1 ≠ k := by
  induction m with
  | nil => simp [alookup]
  | cons p t ih =>
    by_cases h : p.1 = k <;> simp [alookup, h, ih]

theorem alookup_of_mem_nodup {β : Type} {m : List (String × β)} {p : String × β}
    (hnd : (m.map Prod.fst).Nodup) (hp : p ∈ m) : alookup p.1 m = some p.2 := by
  induction m with
  | nil => simp at hp
  | cons q t ih =>
    simp only [List.map_cons, List.nodup_cons] at hnd
    rcases List.mem_cons.mp hp with h | h
    · subst h
      simp [alookup]
    · have hq : q.1 ≠ p.1 := by
        intro hc
        exact hnd.1 (hc ▸ List.mem_map_of_mem Prod.fst h)
      simp only [alookup, if_neg hq]
      exact ih hnd.2 h

theorem alookup_map_extend (k : String) (d : List Nat) (m : DataProcessor.TrackMap) :
    alookup k (m.map (fun q => if q.1 = k then (q.1, q.2 ++ d) else q)) =
      (alookup k m).map (fun l => l ++ d) := by
  induction m with
  | nil => rfl
  | cons p t ih =>
    by_cases h : p.1 = k <;> simp [alookup, h, ih]

theorem alookup_map_extend_ne (k v : String) (d : List Nat)
    (m : DataProcessor.TrackMap) (h : v ≠ k) :
    alookup v (m.map (fun q => if q.1 = k then (q.1, q.2 ++ d) else q)) = alookup v m := by
  induction m with
  | nil => rfl
  | cons p t ih =>
    by_cases hp : p.1 = k
    · have hpv : ¬(p.1 = v) := fun hc => h (hc.symm.trans hp)
      simp [alookup, hp, hpv, Ne.symm h, ih]
    · by_cases hpv : p.1 = v <;> simp [alookup, hp, hpv, h, ih]

theorem keys_map_extend (k : String) (d : List Nat) (m : DataProcessor.TrackMap) :
    (m.map (fun q => if q.1 = k then (q.1, q.2 ++ d) else q)).map Prod.fst =
      m.map Prod.fst := by
  induction m with
  | nil => rfl
  | cons p t ih =>
    by_cases h : p.1 = k <;> simp [h, ih]

theorem localOcc_append (key v : String) :
    ∀ (l1 l2 : List Row) (start : Nat),
      DataProcessor.localOcc key v start (l1 ++ l2) =
        DataProcessor.localOcc key v start l1 ++
          DataProcessor.localOcc key v (start + l1.length) l2 := by
  intro l1
  induction l1 with
  | nil => intro l2 start; simp [DataProcessor.localOcc]
  | cons r rs ih =>
    intro l2 start
    show DataProcessor.localOcc key v start (r :: (rs ++ l2)) = _
    rw [show DataProcessor.localOcc key v start (r :: (rs ++ l2)) =
      (if rowHasTruthy r key && decide (pyLower (pyStrip (Row.get r key)) = v)
        then [start] else []) ++ DataProcessor.localOcc key v (start + 1) (rs ++ l2) from rfl]
    rw [ih]
    show _ = ((if rowHasTruthy r key && decide (pyLower (pyStrip (Row.get r key)) = v)
        then [start] else []) ++ DataProcessor.localOcc key v (start + 1) rs) ++ _
    rw [List.append_assoc, List.length_cons]
    have : start + 1 + rs.length = start + (rs.length + 1) := by omega
    rw [this]

theorem parOccList_cons (key v : String) (r : Row) (rs : List Row) :
    DataProcessor.parOccList (r :: rs) key v =
      (if rowHasTruthy r key && decide (pyLower (pyStrip (Row.get r key)) = v)
        then [0] else []) ++ (DataProcessor.parOccList rs key v).map Nat.succ := by
  unfold DataProcessor.parOccList
  rw [List.length_cons, List.range_succ_eq_map, List.filter_cons]
  rw [List.filter_map]
  have hcomp : ∀ i : Nat,
      ((fun i =>
        match (r :: rs)[i]? with
        | some row => rowHasTruthy row key && decide (pyLower (pyStrip (Row.get row key)) = v)
        | none => false) ∘ Nat.succ) i =
      (fun i =>
        match rs[i]? with
        | some row => rowHasTruthy row key && decide (pyLower (pyStrip (Row.get row key)) = v)
        | none => false) i := by
    intro i
    simp [Function.comp]
  rw [List.filter_congr (fun i _ => hcomp i)]
  by_cases h : rowHasTruthy r key && decide (pyLower (pyStrip (Row.get r key)) = v) <;>
    simp [h]

theorem localOcc_eq_map (key v : String) :
    ∀ (l : List Row) (start : Nat),
      DataProcessor.localOcc key v start l =
        (DataProcessor.parOccList l key v).map (fun i => i + start) := by
  intro l
  induction l with
  | nil => intro start; rfl
  | cons r rs ih =>
    intro start
    rw [parOccList_cons]
    show (if rowHasTruthy r key && decide (pyLower (pyStrip (Row.get r key)) = v)
        then [start] else []) ++ DataProcessor.localOcc key v (start + 1) rs = _
    rw [ih, List.map_append, List.map_map]
    congr 1
    · by_cases h : rowHasTruthy r key && decide (pyLower (pyStrip (Row.get r key)) = v) <;>
        simp [h]
    · refine List.map_congr_left ?_
      intro i _
      show i + (start + 1) = i.succ + start
      omega

theorem parOccList_eq_localOcc (key v : String) (l : List Row) :
    DataProcessor.parOccList l key v = DataProcessor.localOcc key v 0 l := by
  rw [localOcc_eq_map]
  simp

theorem updateAppend_keys (m : DataProcessor.TrackMap) (k : String) (i : Nat) :
    (DataProcessor.updateAppend m k i).map Prod.fst = m.map Prod.fst := by
  unfold DataProcessor.updateAppend
  rw [List.map_map]
  refine List.map_congr_left ?_
  intro p _
  by_cases h : p.1 = k <;> simp [h]

theorem updateAppend_entries {m : DataProcessor.TrackMap} {k : String} {i : Nat}
    (h : ∀ p ∈ m, p.1 ≠ "") :
    ∀ p ∈ DataProcessor.updateAppend m k i, p.1 ≠ "" := by
  intro p hp
  rcases List.mem_map.mp hp with ⟨q, hq, hfe⟩
  by_cases hb : q.1 = k
  · rw [← hfe]
    simp only [if_pos hb]
    exact h q hq
  · rw [← hfe]
    simp only [if_neg hb]
    exact h q hq

theorem mergeTrackMap_cons (g : DataProcessor.TrackMap) (p : String × List Nat)
    (t : DataProcessor.TrackMap) :
    DataProcessor.mergeTrackMap g (p :: t) =
      DataProcessor.mergeTrackMap
        (match alookup p.1 g with
          | some _ => g.map (fun q => if q.1 = p.1 then (q.1, q.2 ++ p.2) else q)
          | none => g ++ [p]) t := rfl

theorem alookup_mergeTrackMap (v : String) :
    ∀ (c g : DataProcessor.TrackMap), (c.map Prod.fst).Nodup →
      alookup v (DataProcessor.mergeTrackMap g c) =
        (match alookup v g, alookup v c with
          | some a, some b => some (a ++ b)
          | some a, none => some a
          | none, ob => ob) := by
  intro c
  induction c with
  | nil =>
    intro g _
    show alookup v g = _
    cases hg : alookup v g <;> rfl
  | cons p t ih =>
    intro g hnd
    simp only [List.map_cons, List.nodup_cons] at hnd
    by_cases hv : v = p.1
    · have hvt : alookup v t = none := by
        rw [alookup_none_iff]
        intro q hq hc
        exact hnd.1 ((hc.trans hv) ▸ List.mem_map_of_mem Prod.fst hq)
      have hself : alookup v (p :: t) = some p.2 := by
        show (if p.1 = v then some p.2 else alookup v t) = some p.2
        rw [if_pos hv.symm]
      cases halg : alookup p.1 g with
      | some a =>
        have halg' : alookup v g = some a := by rw [hv]; exact halg
        have hstep : DataProcessor.mergeTrackMap g (p :: t) =
            DataProcessor.mergeTrackMap
              (g.map (fun q => if q.1 = p.1 then (q.1, q.2 ++ p.2) else q)) t := by
          rw [mergeTrackMap_cons, halg]
        have hup : alookup v (g.map (fun q => if q.1 = p.1 then (q.1, q.2 ++ p.2) else q)) =
            (alookup v g).map (fun l => l ++ p.2) := by
          rw [hv]
          exact alookup_map_extend p.1 p.2 g
        rw [hstep, ih _ hnd.2, hup, halg', hvt, hself]
        rfl
      | none =>
        have halg' : alookup v g = none := by rw [hv]; exact halg
        have hstep : DataProcessor.mergeTrackMap g (p :: t) =
            DataProcessor.mergeTrackMap (g ++ [p]) t := by
          rw [mergeTrackMap_cons, halg]
        have hone : alookup v [p] = some p.2 := by
          show (if p.1 = v then some p.2 else none) = some p.2
          rw [if_pos hv.symm]
        rw [hstep, ih _ hnd.2, alookup_append, halg', hvt, hone, hself]
        rfl
    · have hcons : alookup v (p :: t) = alookup v t := by
        show (if p.1 = v then some p.2 else alookup v t) = alookup v t
        rw [if_neg (fun hc => hv hc.symm)]
      cases halg : alookup p.1 g with
      | some a =>
        have hstep : DataProcessor.mergeTrackMap g (p :: t) =
            DataProcessor.mergeTrackMap
              (g.map (fun q => if q.1 = p.1 then (q.1, q.2 ++ p.2) else q)) t := by
          rw [mergeTrackMap_cons, halg]
        rw [hstep, ih _ hnd.2, alookup_map_extend_ne p.1 v p.2 g hv, hcons]
      | none =>
        have hstep : DataProcessor.mergeTrackMap g (p :: t) =
            DataProcessor.mergeTrackMap (g ++ [p]) t := by
          rw [mergeTrackMap_cons, halg]
        rw [hstep, ih _ hnd.2, alookup_append, hcons]
        have hone : alookup v [p] = none := by
          show (if p.1 = v then some p.2 else none) = none
          rw [if_neg (fun hc => hv hc.symm)]
        rw [hone]
        cases hg : alookup v g <;> rfl

theorem mergeTrackMap_keys :
    ∀ (c g : DataProcessor.TrackMap), (g.map Prod.fst).Nodup →
      (∀ p ∈ g, p.1 ≠ "") → (∀ p ∈ c, p.1 ≠ "") →
      ((DataProcessor.mergeTrackMap g c).map Prod.fst).Nodup ∧
        (∀ p ∈ DataProcessor.mergeTrackMap g c, p.1 ≠ "") := by
  intro c
  induction c with
  | nil =>
    intro g h1 h2 _
    exact ⟨h1, h2⟩
  | cons p t ih =>
    intro g h1 h2 h3
    cases halg : alookup p.1 g with
    | some a =>
      have hstep : DataProcessor.mergeTrackMap g (p :: t) =
          DataProcessor.mergeTrackMap
            (g.map (fun q => if q.1 = p.1 then (q.1, q.2 ++ p.2) else q)) t := by
        rw [mergeTrackMap_cons, halg]
      rw [hstep]
      refine ih _ ?_ ?_ ?_
      · rw [keys_map_extend]
        exact h1
      · intro q hq
        rcases List.mem_map.mp hq with ⟨q0, hq0, hfe⟩
        by_cases hb : q0.1 = p.1
        · rw [← hfe]
          simp only [if_pos hb]
          exact h2 q0 hq0
        · rw [← hfe]
          simp only [if_neg hb]
          exact h2 q0 hq0
      · intro q hq
        exact h3 q (List.mem_cons_of_mem _ hq)
    | none =>
      have hstep : DataProcessor.mergeTrackMap g (p :: t) =
          DataProcessor.mergeTrackMap (g ++ [p]) t := by
        rw [mergeTrackMap_cons, halg]
      rw [hstep]
      refine ih _ ?_ ?_ ?_
      · have hnotin : p.1 ∉ g.map Prod.fst := by
          intro hc
          rcases List.mem_map.mp hc with ⟨q, hq, hq1⟩
          exact (alookup_none_iff p.1 g).mp halg q hq hq1
        rw [List.map_append]
        simp [List.nodup_append, h1, hnotin]
      · intro q hq
        rcases List.mem_append.mp hq with h | h
        · exact h2 q h
        · have : q = p := by simpa using h
          subst this
          exact h3 q (List.mem_cons_self _ _)
      · intro q hq
        exact h3 q (List.mem_cons_of_mem _ hq)

theorem trackField_unfold (m : DataProcessor.TrackMap) (r : Row) (key : String) (start : Nat) :
    DataProcessor.trackField m r key start =
      (if rowHasTruthy r key then
        (if pyLower (pyStrip (Row.get r key)) = "" then m
          else DataProcessor.trackValue m (pyLower (pyStrip (Row.get r key))) start)
      else m) := rfl

theorem trackFieldRows_lookup (key v : String) (hv : v ≠ "") :
    ∀ (l : List Row) (m : DataProcessor.TrackMap) (start : Nat),
      alookup v (DataProcessor.trackFieldRows key m start l) =
        (match alookup v m with
          | some a => some (a ++ DataProcessor.localOcc key v start l)
          | none =>
            if DataProcessor.localOcc key v start l = [] then none
            else some (DataProcessor.localOcc key v start l)) := by
  intro l
  induction l with
  | nil =>
    intro m start
    show alookup v m = _
    cases hm : alookup v m <;> simp [DataProcessor.localOcc]
  | cons r rs ih =>
    intro m start
    show alookup v (DataProcessor.trackFieldRows key
      (DataProcessor.trackField m r key start) (start + 1) rs) = _
    rw [ih]
    have hocc : DataProcessor.localOcc key v start (r :: rs) =
      (if rowHasTruthy r key && decide (pyLower (pyStrip (Row.get r key)) = v)
        then [start] else []) ++ DataProcessor.localOcc key v (start + 1) rs := rfl
    by_cases hr : rowHasTruthy r key && decide (pyLower (pyStrip (Row.get r key)) = v)
    · have htruthy : rowHasTruthy r key = true := ((Bool.and_eq_true _ _).mp hr).1
      have hnorm : pyLower (pyStrip (Row.get r key)) = v :=
        of_decide_eq_true ((Bool.and_eq_true _ _).mp hr).2
      have hstep : DataProcessor.trackField m r key start =
          DataProcessor.trackValue m v start := by
        rw [trackField_unfold, htruthy, if_pos rfl, hnorm, if_neg hv]
      cases hm : alookup v m with
      | some a =>
        have hval : DataProcessor.trackValue m v start =
            DataProcessor.updateAppend m v start := by
          unfold DataProcessor.trackValue
          rw [hm]
        rw [hstep, hval, alookup_updateAppend_self, hm, hocc, if_pos hr]
        show some (a ++ [start] ++ DataProcessor.localOcc key v (start + 1) rs) =
          some (a ++ ([start] ++ DataProcessor.localOcc key v (start + 1) rs))
        rw [List.append_assoc]
      | none =>
        have hval : DataProcessor.trackValue m v start = m ++ [(v, [start])] := by
          unfold DataProcessor.trackValue
          rw [hm]
          rfl
        rw [hstep, hval, alookup_append, hm, hocc, if_pos hr]
        have hone : alookup v [(v, [start])] = some [start] := by
          show (if v = v then some [start] else none) = some [start]
          rw [if_pos rfl]
        have hsc : (Option.orElse none fun x => alookup v [(v, [start])]) = some [start] :=
          hone
        rw [hsc]
        show some ([start] ++ DataProcessor.localOcc key v (start + 1) rs) =
          if [start] ++ DataProcessor.localOcc key v (start + 1) rs = [] then none
          else some ([start] ++ DataProcessor.localOcc key v (start + 1) rs)
        rw [if_neg (by simp)]
    · have halk : alookup v (DataProcessor.trackField m r key start) = alookup v m := by
        rw [trackField_unfold]
        by_cases ht : rowHasTruthy r key
        · rw [if_pos ht]
          by_cases hval : pyLower (pyStrip (Row.get r key)) = ""
          · rw [if_pos hval]
          · rw [if_neg hval]
            have hvne : pyLower (pyStrip (Row.get r key)) ≠ v := by
              intro hc
              exact hr (by rw [ht, hc]; simp)
            unfold DataProcessor.trackValue
            cases hmv : alookup (pyLower (pyStrip (Row.get r key))) m with
            | some a =>
              exact alookup_updateAppend_ne _ v m start (Ne.symm hvne)
            | none =>
              rw [show DataProcessor.insertNew m (pyLower (pyStrip (Row.get r key))) [start] =
                m ++ [(pyLower (pyStrip (Row.get r key)), [start])] from rfl]
              rw [alookup_append]
              have hone : alookup v [(pyLower (pyStrip (Row.get r key)), [start])] = none := by
                show (if pyLower (pyStrip (Row.get r key)) = v then some [start] else none) = none
                rw [if_neg hvne]
              rw [hone]
              cases hg : alookup v m <;> rfl
        · rw [if_neg ht]
      rw [halk, hocc, if_neg hr, List.nil_append]

theorem trackFieldRows_keys (key : String) :
    ∀ (l : List Row) (m : DataProcessor.TrackMap) (start : Nat),
      (m.map Prod.fst).Nodup → (∀ p ∈ m, p.1 ≠ "") →
      ((DataProcessor.trackFieldRows key m start l).map Prod.fst).Nodup ∧
        (∀ p ∈ DataProcessor.trackFieldRows key m start l, p.1 ≠ "") := by
  intro l
  induction l with
  | nil =>
    intro m start h1 h2
    exact ⟨h1, h2⟩
  | cons r rs ih =>
    intro m start h1 h2
    show ((DataProcessor.trackFieldRows key
      (DataProcessor.trackField m r key start) (start + 1) rs).map Prod.fst).Nodup ∧ _
    refine ih _ _ ?_ ?_
    all_goals
      rw [trackField_unfold]
      by_cases ht : rowHasTruthy r key
      case neg => rw [if_neg ht]; first | exact h1 | exact h2
      case pos =>
        rw [if_pos ht]
        by_cases hval : pyLower (pyStrip (Row.get r key)) = ""
        case pos => rw [if_pos hval]; first | exact h1 | exact h2
        case neg =>
          rw [if_neg hval]
          unfold DataProcessor.trackValue
          cases hmv : alookup (pyLower (pyStrip (Row.get r key))) m
          case some a =>
            first
            | (rw [updateAppend_keys]; exact h1)
            | exact updateAppend_entries h2
          case none =>
            rw [show DataProcessor.insertNew m (pyLower (pyStrip (Row.get r key))) [start] =
              m ++ [(pyLower (pyStrip (Row.get r key)), [start])] from rfl]
            first
            | (have hnotin : pyLower (pyStrip (Row.get r key)) ∉ m.map Prod.fst := by
                intro hc
                rcases List.mem_map.mp hc with ⟨q, hq, hq1⟩
                exact (alookup_none_iff _ m).mp hmv q hq hq1
               rw [List.map_append]
               simp [List.nodup_append, h1, hnotin])
            | (intro q hq
               rcases List.mem_append.mp hq with h | h
               · exact h2 q h
               · have : q = (pyLower (pyStrip (Row.get r key)), [start]) := by simpa using h
                 subst this
                 exact hval)

theorem mem_trackKeys {key : String} (h : key ∈ DataProcessor.trackKeys) :
    key = "email" ∨ key = "username" ∨ key = "personalid" ∨ key = "idcardno" := by
  simpa [DataProcessor.trackKeys] using h

theorem readTrack_emptyTracking (key : String) :
    DataProcessor.readTrack DataProcessor.emptyTracking key = [] := by
  unfold DataProcessor.readTrack DataProcessor.emptyTracking
  split_ifs <;> rfl

theorem readTrack_track_row {key : String} (hkey : key ∈ DataProcessor.trackKeys)
    (t : DataProcessor.DupTracking) (r : Row) (idx : Nat) :
    DataProcessor.readTrack (DataProcessor.track_duplicates_in_chunk r idx t) key =
      DataProcessor.trackField (DataProcessor.readTrack t key) r key idx := by
  rcases mem_trackKeys hkey with h | h | h | h <;> subst h <;>
    simp [DataProcessor.readTrack, DataProcessor.track_duplicates_in_chunk]

theorem readTrack_trackChunkFrom {key : String} (hkey : key ∈ DataProcessor.trackKeys) :
    ∀ (l : List Row) (t : DataProcessor.DupTracking) (start : Nat),
      DataProcessor.readTrack (DataProcessor.trackChunkFrom t start l) key =
        DataProcessor.trackFieldRows key (DataProcessor.readTrack t key) start l := by
  intro l
  induction l with
  | nil => intro t start; rfl
  | cons r rs ih =>
    intro t start
    show DataProcessor.readTrack
      (DataProcessor.trackChunkFrom (DataProcessor.track_duplicates_in_chunk r start t)
        (start + 1) rs) key = _
    rw [ih, readTrack_track_row hkey]
    rfl

theorem readTrack_mergeTracking (key : String) (g c : DataProcessor.DupTracking) :
    DataProcessor.readTrack (DataProcessor.mergeTracking g c) key =
      DataProcessor.mergeTrackMap (DataProcessor.readTrack g key)
        (DataProcessor.readTrack c key) := by
  unfold DataProcessor.readTrack DataProcessor.mergeTracking
  split_ifs <;> rfl

theorem readTrack_foldMerge (key : String) :
    ∀ (L : List DataProcessor.ChunkResult) (g : DataProcessor.DupTracking),
      DataProcessor.readTrack
        (L.foldl (fun acc c => DataProcessor.mergeTracking acc c.duplicate_tracking) g) key =
      L.foldl
        (fun acc c => DataProcessor.mergeTrackMap acc
          (DataProcessor.readTrack c.duplicate_tracking key))
        (DataProcessor.readTrack g key) := by
  intro L
  induction L with
  | nil => intro g; rfl
  | cons c cs ih =>
    intro g
    rw [List.foldl_cons, List.foldl_cons, ih, readTrack_mergeTracking]

theorem mapIdxFrom_append {β : Type} (f : Nat → Row → β) :
    ∀ (l1 l2 : List Row) (n : Nat),
      mapIdxFrom f n (l1 ++ l2) = mapIdxFrom f n l1 ++ mapIdxFrom f (n + l1.length) l2 := by
  intro l1
  induction l1 with
  | nil => intro l2 n; simp [mapIdxFrom]
  | cons a t ih =>
    intro l2 n
    show f n a :: mapIdxFrom f (n + 1) (t ++ l2) = _
    rw [ih]
    show _ = f n a :: (mapIdxFrom f (n + 1) t ++ mapIdxFrom f (n + (t.length + 1)) l2)
    have : n + 1 + t.length = n + (t.length + 1) := by omega
    rw [this]

theorem splitFromAux_results {β : Type} (cs : Nat) (hcs : 0 < cs) (f : Nat → Row → β) :
    ∀ (fuel : Nat) (l : List Row) (start : Nat), l.length ≤ fuel →
      ((DataProcessor.splitFromAux cs fuel start l).map
        (fun p => mapIdxFrom f p.2 p.1)).flatten = mapIdxFrom f start l := by
  intro fuel
  induction fuel with
  | zero =>
    intro l start h
    cases l with
    | nil => rfl
    | cons r rest => simp at h
  | succ fuel ih =>
    intro l start h
    cases l with
    | nil => rfl
    | cons r rest =>
      show ((((r :: rest).take cs, start) ::
        DataProcessor.splitFromAux cs fuel (start + cs) ((r :: rest).drop cs)).map
          (fun p => mapIdxFrom f p.2 p.1)).flatten = _
      rw [List.map_cons, List.flatten_cons]
      by_cases hlen : cs ≤ (r :: rest).length
      · have hdlen : ((r :: rest).drop cs).length ≤ fuel := by
          rw [List.length_drop]
          simp only [List.length_cons] at h ⊢
          omega
        rw [ih _ _ hdlen]
        have htl : ((r :: rest).take cs).length = cs := by
          rw [List.length_take]
          omega
        conv_rhs => rw [← List.take_append_drop cs (r :: rest)]
        rw [mapIdxFrom_append, htl]
      · push_neg at hlen
        have hdrop : (r :: rest).drop cs = [] :=
          List.drop_eq_nil_of_le (by omega)
        have htake : (r :: rest).take cs = r :: rest :=
          List.take_of_length_le (by omega)
        rw [hdrop, htake]
        show mapIdxFrom f start (r :: rest) ++
          ((DataProcessor.splitFromAux cs fuel (start + cs) []).map
            (fun p => mapIdxFrom f p.2 p.1)).flatten = _
        rw [show DataProcessor.splitFromAux cs fuel (start + cs) ([] : List Row) = [] from by
          cases fuel <;> rfl]
        simp

theorem splitFromAux_tracking (cs : Nat) (hcs : 0 < cs) (key v : String) (hv : v ≠ "") :
    ∀ (fuel : Nat) (l : List Row) (start : Nat) (g : DataProcessor.TrackMap),
      l.length ≤ fuel →
      alookup v ((DataProcessor.splitFromAux cs fuel start l).foldl
        (fun acc p => DataProcessor.mergeTrackMap acc
          (DataProcessor.trackFieldRows key [] p.2 p.1)) g) =
        (match alookup v g with
          | some a => some (a ++ DataProcessor.localOcc key v start l)
          | none =>
            if DataProcessor.localOcc key v start l = [] then none
            else some (DataProcessor.localOcc key v start l)) := by
  intro fuel
  induction fuel with
  | zero =>
    intro l start g h
    cases l with
    | nil =>
      show alookup v g = _
      cases hg : alookup v g with
      | some a =>
        show some a = some (a ++ DataProcessor.localOcc key v start [])
        rw [show DataProcessor.localOcc key v start [] = [] from rfl, List.append_nil]
      | none => rfl
    | cons r rest => simp at h
  | succ fuel ih =>
    intro l start g h
    cases l with
    | nil =>
      show alookup v g = _
      cases hg : alookup v g with
      | some a =>
        show some a = some (a ++ DataProcessor.localOcc key v start [])
        rw [show DataProcessor.localOcc key v start [] = [] from rfl, List.append_nil]
      | none => rfl
    | cons r rest =>
      have hchunkkeys := (trackFieldRows_keys key ((r :: rest).take cs) [] start
        (by simp) (by intro p hp; simp at hp)).1
      have hcm : alookup v (DataProcessor.trackFieldRows key [] start ((r :: rest).take cs)) =
          (if DataProcessor.localOcc key v start ((r :: rest).take cs) = [] then none
            else some (DataProcessor.localOcc key v start ((r :: rest).take cs))) := by
        rw [trackFieldRows_lookup key v hv]
        rfl
      have hg2 := alookup_mergeTrackMap v
        (DataProcessor.trackFieldRows key [] start ((r :: rest).take cs)) g hchunkkeys
      have hdlen : ((r :: rest).drop cs).length ≤ fuel := by
        rw [List.length_drop]
        simp only [List.length_cons] at h ⊢
        omega
      have hsplit : DataProcessor.localOcc key v start (r :: rest) =
          DataProcessor.localOcc key v start ((r :: rest).take cs) ++
            DataProcessor.localOcc key v (start + cs) ((r :: rest).drop cs) := by
        by_cases hlen : cs ≤ (r :: rest).length
        · have htl : ((r :: rest).take cs).length = cs := by
            rw [List.length_take]
            omega
          conv_lhs => rw [← List.take_append_drop cs (r :: rest)]
          rw [localOcc_append, htl]
        · push_neg at hlen
          rw [List.drop_eq_nil_of_le (by omega), List.take_of_length_le (by omega)]
          show _ = _ ++ ([] : List Nat)
          rw [List.append_nil]
      show alookup v ((((r :: rest).take cs, start) ::
        DataProcessor.splitFromAux cs fuel (start + cs) ((r :: rest).drop cs)).foldl
          (fun acc p => DataProcessor.mergeTrackMap acc
            (DataProcessor.trackFieldRows key [] p.2 p.1)) g) = _
      rw [List.foldl_cons]
      rw [show DataProcessor.trackFieldRows key []
          (((r :: rest).take cs, start)).2 (((r :: rest).take cs, start)).1 =
        DataProcessor.trackFieldRows key [] start ((r :: rest).take cs) from rfl]
      rw [ih _ _ _ hdlen]
      rw [hg2, hcm]
      cases hgv : alookup v g with
      | some a =>
        by_cases hA : DataProcessor.localOcc key v start ((r :: rest).take cs) = []
        · rw [if_pos hA]
          show some (a ++ DataProcessor.localOcc key v (start + cs) ((r :: rest).drop cs)) =
            some (a ++ DataProcessor.localOcc key v start (r :: rest))
          rw [hsplit, hA, List.nil_append]
        · rw [if_neg hA]
          show some (a ++ DataProcessor.localOcc key v start ((r :: rest).take cs) ++
            DataProcessor.localOcc key v (start + cs) ((r :: rest).drop cs)) =
            some (a ++ DataProcessor.localOcc key v start (r :: rest))
          rw [hsplit, List.append_assoc]
      | none =>
        by_cases hA : DataProcessor.localOcc key v start ((r :: rest).take cs) = []
        · rw [if_pos hA]
          show (if DataProcessor.localOcc key v (start + cs) ((r :: rest).drop cs) = []
            then none
            else some (DataProcessor.localOcc key v (start + cs) ((r :: rest).drop cs))) = _
          rw [hsplit, hA, List.nil_append]
        · rw [if_neg hA]
          show some (DataProcessor.localOcc key v start ((r :: rest).take cs) ++
            DataProcessor.localOcc key v (start + cs) ((r :: rest).drop cs)) = _
          rw [hsplit]
          show _ = if DataProcessor.localOcc key v start ((r :: rest).take cs) ++
              DataProcessor.localOcc key v (start + cs) ((r :: rest).drop cs) = [] then none
            else some (DataProcessor.localOcc key v start ((r :: rest).take cs) ++
              DataProcessor.localOcc key v (start + cs) ((r :: rest).drop cs))
          rw [if_neg (by simp [hA])]

theorem splitFromAux_tracking_keys (cs : Nat) (key : String) :
    ∀ (fuel : Nat) (l : List Row) (start : Nat) (g : DataProcessor.TrackMap),
      (g.map Prod.fst).Nodup → (∀ p ∈ g, p.1 ≠ "") →
      (((DataProcessor.splitFromAux cs fuel start l).foldl
        (fun acc p => DataProcessor.mergeTrackMap acc
          (DataProcessor.trackFieldRows key [] p.2 p.1)) g).map Prod.fst).Nodup ∧
        (∀ p ∈ (DataProcessor.splitFromAux cs fuel start l).foldl
          (fun acc p => DataProcessor.mergeTrackMap acc
            (DataProcessor.trackFieldRows key [] p.2 p.1)) g, p.1 ≠ "") := by
  intro fuel
  induction fuel with
  | zero =>
    intro l start g h1 h2
    cases l with
    | nil => exact ⟨h1, h2⟩
    | cons r rest => exact ⟨h1, h2⟩
  | succ fuel ih =>
    intro l start g h1 h2
    cases l with
    | nil => exact ⟨h1, h2⟩
    | cons r rest =>
      have hchunk := trackFieldRows_keys key ((r :: rest).take cs) [] start
        (by simp) (by intro p hp; simp at hp)
      have hg2 := mergeTrackMap_keys
        (DataProcessor.trackFieldRows key [] start ((r :: rest).take cs)) g h1 h2 hchunk.2
      show ((((((r :: rest).take cs, start) ::
        DataProcessor.splitFromAux cs fuel (start + cs) ((r :: rest).drop cs)).foldl
          (fun acc p => DataProcessor.mergeTrackMap acc
            (DataProcessor.trackFieldRows key [] p.2 p.1)) g)).map Prod.fst).Nodup ∧ _
      rw [List.foldl_cons]
      rw [show DataProcessor.trackFieldRows key []
          (((r :: rest).take cs, start)).2 (((r :: rest).take cs, start)).1 =
        DataProcessor.trackFieldRows key [] start ((r :: rest).take cs) from rfl]
      exact ih _ _ _ hg2.1 hg2.2

theorem foldl_congr_fn {α β : Type} {f g : α → β → α} (h : ∀ a b, f a b = g a b) :
    ∀ (l : List β) (a : α), l.foldl f a = l.foldl g a := by
  intro l
  induction l with
  | nil => intro a; rfl
  | cons x t ih =>
    intro a
    rw [List.foldl_cons, List.foldl_cons, h, ih]

/-! Claim C2: cross-chunk duplicate merging in the parallel path. -/

/-- Claim C2 (corrected): in the chunked/parallel path, for every tracked
field `key` and every non-empty normalized value `v`, the merged duplicate
tracking holds under `v` exactly the full ascending list of global row
indices carrying `v` — so two occurrences split across two chunks are
merged into one group — and the merged per-field duplicate count counts
each value with at least two occurrences exactly once (the merged map
enumerates each value by a single entry). However, the combined results
are exactly the per-row `validate_single_row` outputs at their global
indices: the merge step adds no per-row duplicate error. -/
theorem c2_cross_chunk_merge (today : PyDate) (regName : Option String)
    (required_columns : List String) (chunk_size : Nat) (rows : List Row)
    (key v : String) (hkey : key ∈ DataProcessor.trackKeys)
    (hcs : 0 < chunk_size) (hv : v ≠ "") :
    (DataProcessor.validate_dataframe_parallel today regName required_columns
        chunk_size rows).results =
      mapIdxFrom (fun i row =>
        ParallelValidator.validate_single_row today row i required_columns regName) 0 rows ∧
    alookup v (DataProcessor.readTrack
        (DataProcessor.validate_dataframe_parallel today regName required_columns
          chunk_size rows).global_duplicates key) =
      (if DataProcessor.parOccList rows key v = [] then none
        else some (DataProcessor.parOccList rows key v)) ∧
    ∃ ks : List String, ks.Nodup ∧
      (∀ w, w ∈ ks ↔ (w ≠ "" ∧ DataProcessor.parOccList rows key w ≠ [])) ∧
      DataProcessor.readCount
          (DataProcessor.validate_dataframe_parallel today regName required_columns
            chunk_size rows).duplicate_counts key =
        (ks.filter
          (fun w => decide (2 ≤ (DataProcessor.parOccList rows key w).length))).length := by
  have hm : DataProcessor.readTrack
      (DataProcessor.validate_dataframe_parallel today regName required_columns
        chunk_size rows).global_duplicates key =
      (DataProcessor.splitFromAux chunk_size rows.length 0 rows).foldl
        (fun acc p => DataProcessor.mergeTrackMap acc
          (DataProcessor.trackFieldRows key [] p.2 p.1)) [] := by
    show DataProcessor.readTrack
      (((DataProcessor.splitFrom chunk_size 0 rows).map
        (fun p => DataProcessor.validate_chunk today regName required_columns p.1 p.2)).foldl
        (fun acc c => DataProcessor.mergeTracking acc c.duplicate_tracking)
        DataProcessor.emptyTracking) key = _
    rw [readTrack_foldMerge, List.foldl_map, readTrack_emptyTracking]
    have hpt : ∀ (acc : DataProcessor.TrackMap) (p : List Row × Nat),
        DataProcessor.mergeTrackMap acc
          (DataProcessor.readTrack
            (DataProcessor.validate_chunk today regName required_columns
              p.1 p.2).duplicate_tracking key) =
        DataProcessor.mergeTrackMap acc (DataProcessor.trackFieldRows key [] p.2 p.1) := by
      intro acc p
      rw [show (DataProcessor.validate_chunk today regName required_columns
          p.1 p.2).duplicate_tracking =
        DataProcessor.trackChunkFrom DataProcessor.emptyTracking p.2 p.1 from rfl]
      rw [readTrack_trackChunkFrom hkey, readTrack_emptyTracking]
    rw [foldl_congr_fn hpt]
    rfl
  have htrackAll : ∀ w : String, w ≠ "" →
      alookup w ((DataProcessor.splitFromAux chunk_size rows.length 0 rows).foldl
        (fun acc p => DataProcessor.mergeTrackMap acc
          (DataProcessor.trackFieldRows key [] p.2 p.1)) []) =
      (if DataProcessor.parOccList rows key w = [] then none
        else some (DataProcessor.parOccList rows key w)) := by
    intro w hw
    rw [parOccList_eq_localOcc]
    exact splitFromAux_tracking chunk_size hcs key w hw rows.length rows 0 [] (le_refl _)
  have hkeys := splitFromAux_tracking_keys chunk_size key rows.length rows 0 []
    (by simp) (by intro p hp; simp at hp)
  refine ⟨?_, ?_, ?_⟩
  · show (((DataProcessor.splitFrom chunk_size 0 rows).map
      (fun p => DataProcessor.validate_chunk today regName required_columns p.1 p.2)).map
        (fun c => c.results)).flatten = _
    rw [List.map_map]
    exact splitFromAux_results chunk_size hcs _ rows.length rows 0 (le_refl _)
  · rw [hm]
    exact htrackAll v hv
  · refine ⟨((DataProcessor.splitFromAux chunk_size rows.length 0 rows).foldl
      (fun acc p => DataProcessor.mergeTrackMap acc
        (DataProcessor.trackFieldRows key [] p.2 p.1)) []).map Prod.fst,
      hkeys.1, ?_, ?_⟩
    · intro w
      constructor
      · intro hw
        rcases List.mem_map.mp hw with ⟨p, hp, hfe⟩
        subst hfe
        refine ⟨hkeys.2 p hp, ?_⟩
        intro hocc
        have h1 : alookup p.1
            ((DataProcessor.splitFromAux chunk_size rows.length 0 rows).foldl
              (fun acc p => DataProcessor.mergeTrackMap acc
                (DataProcessor.trackFieldRows key [] p.2 p.1)) []) = none := by
          rw [htrackAll p.1 (hkeys.2 p hp), if_pos hocc]
        have h2 := alookup_of_mem_nodup hkeys.1 hp
        rw [h1] at h2
        exact absurd h2 (by simp)
      · rintro ⟨hw1, hw2⟩
        by_contra hnot
        have hno : alookup w
            ((DataProcessor.splitFromAux chunk_size rows.length 0 rows).foldl
              (fun acc p => DataProcessor.mergeTrackMap acc
                (DataProcessor.trackFieldRows key [] p.2 p.1)) []) = none :=
          (alookup_none_iff _ _).mpr
            (fun p hp hc => hnot (hc ▸ List.mem_map_of_mem Prod.fst hp))
        rw [htrackAll w hw1, if_neg hw2] at hno
        exact absurd hno (by simp)
    · have hentry : ∀ p ∈ (DataProcessor.splitFromAux chunk_size rows.length 0 rows).foldl
          (fun acc p => DataProcessor.mergeTrackMap acc
            (DataProcessor.trackFieldRows key [] p.2 p.1)) [],
          p.2 = DataProcessor.parOccList rows key p.1 := by
        intro p hp
        have h2 := alookup_of_mem_nodup hkeys.1 hp
        rw [htrackAll p.1 (hkeys.2 p hp)] at h2
        by_cases hocc : DataProcessor.parOccList rows key p.1 = []
        · rw [if_pos hocc] at h2
          exact absurd h2.symm (by simp)
        · rw [if_neg hocc] at h2
          exact (Option.some_inj.mp h2).symm
      have hcount : DataProcessor.readCount
          (DataProcessor.validate_dataframe_parallel today regName required_columns
            chunk_size rows).duplicate_counts key =
          DataProcessor.countTrueDuplicates
            (DataProcessor.readTrack
              (DataProcessor.validate_dataframe_parallel today regName required_columns
                chunk_size rows).global_duplicates key) := by
        rcases mem_trackKeys hkey with h | h | h | h <;> subst h <;> rfl
      rw [hcount, hm]
      show ((((DataProcessor.splitFromAux chunk_size rows.length 0 rows).foldl
        (fun acc p => DataProcessor.mergeTrackMap acc
          (DataProcessor.trackFieldRows key [] p.2 p.1)) []).filter
            (fun p => decide (1 < p.2.length))).length) = _
      rw [List.filter_congr (fun p hp => by rw [hentry p hp])]
      rw [List.filter_map Prod.fst]
      rw [List.length_map]
      rfl

/-- The smallest cross-chunk duplicate: two identical emails in two
one-row chunks (chunk size 1); the C2 theorem applied to it. -/
theorem c2_cross_chunk_merge_witness :
    (DataProcessor.validate_dataframe_parallel ⟨2024, 1, 1⟩ none [] 1 rows2dup).results =
      mapIdxFrom (fun i row =>
        ParallelValidator.validate_single_row ⟨2024, 1, 1⟩ row i [] none) 0 rows2dup ∧
    alookup "a@b.com" (DataProcessor.readTrack
        (DataProcessor.validate_dataframe_parallel ⟨2024, 1, 1⟩ none [] 1
          rows2dup).global_duplicates "email") =
      (if DataProcessor.parOccList rows2dup "email" "a@b.com" = [] then none
        else some (DataProcessor.parOccList rows2dup "email" "a@b.com")) ∧
    ∃ ks : List String, ks.Nodup ∧
      (∀ w, w ∈ ks ↔ (w ≠ "" ∧ DataProcessor.parOccList rows2dup "email" w ≠ [])) ∧
      DataProcessor.readCount
          (DataProcessor.validate_dataframe_parallel ⟨2024, 1, 1⟩ none [] 1
            rows2dup).duplicate_counts "email" =
        (ks.filter
          (fun w => decide (2 ≤ (DataProcessor.parOccList rows2dup "email" w).length))).length :=
  c2_cross_chunk_merge ⟨2024, 1, 1⟩ none [] 1 rows2dup "email" "a@b.com"
    (by decide) (by decide) (by decide)

end DataValidation
